import Mathlib

/-!
# Topology probe bundle assembly (`agent/topology_probes.go`)

A shallow embedding of `NewTopologyProbe` and `NewTopologyProbeBundle`.

The probe packages (`netlink.NewProbe`, ...), the Go `plugin` package, `path.Join`,
the platform (`runtime.GOOS`) and the configuration are collaborators of the
assembler; they are the fields of `Env`.  A constructor may be stateful, so its
result is a function of everything that happened before it was called (the
trace of earlier calls and their results) and of the bundle it is handed.  It
is handed the bundle to look up the handlers already there; the bundle is
filled by the assembler alone.  The calls of the logger are left out.

Go values that may be `nil` are `Option`s: a `probe.Handler` is `Option Handler`,
an `error` is `Option GoError`, a `*probe.Bundle` is `Option Bundle`.
-/

namespace Skydive

/-- An instantiated probe handler (an opaque object, here its identity). -/
abbrev Handler := Nat

/-- A Go `error`, identified with its message. -/
abbrev GoError := String

/-- The Go pair `(probe.Handler, error)` a constructor returns. -/
abbrev CtorResult := Option Handler × Option GoError

/-- The `tp.Context` built in `NewTopologyProbeBundle` from its two arguments
(the logger and the configuration are process-wide). -/
structure Context where
  Graph : Nat
  RootNode : Nat
deriving DecidableEq, Repr

/-- Modelled from the spec: `probe.Bundle` (package `probe`, with `NewBundle`, `AddHandler`
and `GetHandler`) is not part of the file; the spec describes it as an insertion-ordered
mapping from probe name to handler with at most one handler per name, an idempotent add
and a lookup by name. -/
structure Bundle where
  Handlers : List (String × Option Handler)
deriving DecidableEq, Repr

/-- Modelled from the spec: `probe.NewBundle()`, the bundle "created empty at assembly start". -/
def NewBundle : Bundle := ⟨[]⟩

/-- Modelled from the spec: the add of the ordered mapping on its list of entries: the
entry of a name already present is replaced where it stands, a new name is appended. -/
def addEntry (typ : String) (handler : Option Handler) :
    List (String × Option Handler) → List (String × Option Handler)
  | [] => [(typ, handler)]
  | (k, v) :: rest =>
    if k = typ then (typ, handler) :: rest else (k, v) :: addEntry typ handler rest

/-- Modelled from the spec: `bundle.AddHandler(typ, handler)`, the add of the ordered
mapping (one entry per name, in order of first insertion). It stores what it is given. -/
def Bundle.AddHandler (b : Bundle) (typ : String) (handler : Option Handler) : Bundle :=
  ⟨addEntry typ handler b.Handlers⟩

/-- Modelled from the spec: `bundle.GetHandler(typ)`, the lookup by name; `nil` when the
name has no entry. -/
def Bundle.GetHandler (b : Bundle) (typ : String) : Option Handler :=
  (b.Handlers.lookup typ).join

/-- The names that have an entry in the bundle, in insertion order. -/
def Bundle.names (b : Bundle) : List String := b.Handlers.map Prod.fst

/-- What the assembler did, in order: every call into a collaborator, with its result. -/
inductive Event where
  /-- The call `<pkg>.NewProbe(ctx, bundle)` of a built-in probe package, and its result. -/
  | ctor (pkg : String) (res : CtorResult)
  /-- The call `plugin.Open(filename)` for the extension `so`, and its error (if any). -/
  | pluginOpen (so : String) (filename : String) (err : Option GoError)
  /-- The call `plugin.Lookup("NewProbe")` on the module of extension `so`. -/
  | pluginLookup (so : String) (err : Option GoError)
  /-- The call of the exported, signature-checked constructor of extension `so`. -/
  | pluginCtor (so : String) (res : CtorResult)
deriving DecidableEq, Repr

/-- The value `plugin.Lookup` returns: a `plugin.Symbol` is an `interface{}`; either its
dynamic type is `func(probes.Context, *probe.Bundle) (probes.Handler, error)`, or it is
a value of another type, whose name `reflect.TypeOf` reports. -/
inductive Symbol where
  | handlerCtor (f : Context → List Event → Bundle → CtorResult)
  | other (typeName : String)

/-- A loaded module (`*plugin.Plugin`): what `Lookup` answers for a symbol name. -/
structure Plugin where
  Lookup : String → Except GoError Symbol

/-- The collaborators and inputs of one call of `NewTopologyProbeBundle`. -/
structure Env where
  /-- Whether `runtime.GOOS == "linux"`. -/
  linux : Bool
  /-- The value of `config.GetStringSlice("agent.topology.probes")`. -/
  probes : List String
  /-- The value of `config.GetString("agent.topology.plugins_dir")`. -/
  pluginsDir : String
  /-- The value of `config.GetStringSlice("agent.topology.plugins")`. -/
  plugins : List String
  /-- The function `path.Join` on two elements. -/
  pathJoin : String → String → String
  /-- The constructor `<pkg>.NewProbe` of each of the probe packages. -/
  NewProbe : String → Context → List Event → Bundle → CtorResult
  /-- The function `plugin.Open`. -/
  pluginOpen : String → List Event → Except GoError Plugin

/-- The state of the assembly: the bundle under construction and the trace so far. -/
structure Machine where
  bundle : Bundle
  trace : List Event

/-- The call `<pkg>.NewProbe(ctx, bundle)`: the constructor reads the bundle, and the call
is recorded. -/
def callCtor (env : Env) (pkg : String) (ctx : Context) (m : Machine) : CtorResult × Machine :=
  let r := env.NewProbe pkg ctx m.trace m.bundle
  (r, { m with trace := m.trace ++ [Event.ctor pkg r] })

/-- The 13 names `NewTopologyProbe` dispatches on. -/
def builtinNames : List String :=
  ["netlink", "netns", "ovsdb", "lxd", "docker", "lldp", "neutron", "opencontrail",
   "socketinfo", "libvirt", "runc", "vpp", "bess"]

/-- The function `NewTopologyProbe(name, ctx, bundle)`. -/
def NewTopologyProbe (env : Env) (name : String) (ctx : Context) (m : Machine) :
    CtorResult × Machine :=
  match name with
  | "netlink" => callCtor env "netlink" ctx m
  | "netns" => callCtor env "netns" ctx m
  | "ovsdb" => callCtor env "ovsdb" ctx m
  | "lxd" => callCtor env "lxd" ctx m
  | "docker" => callCtor env "docker" ctx m
  | "lldp" => callCtor env "lldp" ctx m
  | "neutron" => callCtor env "neutron" ctx m
  | "opencontrail" => callCtor env "opencontrail" ctx m
  | "socketinfo" => callCtor env "socketinfo" ctx m
  | "libvirt" => callCtor env "libvirt" ctx m
  | "runc" => callCtor env "runc" ctx m
  | "vpp" => callCtor env "vpp" ctx m
  | "bess" => callCtor env "bess" ctx m
  | _ => ((none, some ("unsupported probe " ++ name)), m)

/-- The block `if runtime.GOOS == "linux" { ... }` that instantiates the two mandatory
probes (lines 100-112); the first component is the error it returns with, if any. -/
def mandatoryBlock (env : Env) (ctx : Context) (m : Machine) : Option GoError × Machine :=
  if env.linux then
    match NewTopologyProbe env "netlink" ctx m with
    | ((_, some err), m1) => (some err, m1)
    | ((nlHandler, none), m1) =>
      let m2 : Machine := { m1 with bundle := m1.bundle.AddHandler "netlink" nlHandler }
      match NewTopologyProbe env "netns" ctx m2 with
      | ((_, some err), m3) => (some err, m3)
      | ((nsHandler, none), m3) =>
        (none, { m3 with bundle := m3.bundle.AddHandler "netns" nsHandler })
  else (none, m)

/-- A Go loop `for _, x := range xs { ... }` whose body either returns an error (which
ends the function) or falls through to the next element. -/
def forRange (body : String → Machine → Option GoError × Machine) :
    List String → Machine → Option GoError × Machine
  | [], m => (none, m)
  | x :: rest, m =>
    match body x m with
    | (some err, m1) => (some err, m1)
    | (none, m1) => forRange body rest m1

/-- One iteration of the loop over the built-in names (lines 115-124). -/
def probeIter (env : Env) (ctx : Context) (t : String) (m : Machine) :
    Option GoError × Machine :=
  if m.bundle.GetHandler t ≠ none then (none, m)
  else
    match NewTopologyProbe env t ctx m with
    | ((_, some err), m1) => (some err, m1)
    | ((some handler, none), m1) =>
      (none, { m1 with bundle := m1.bundle.AddHandler t (some handler) })
    | ((none, none), m1) => (none, m1)

/-- The loop `for _, t := range probeList` over the built-in names (lines 114-125). -/
def probeLoop (env : Env) (ctx : Context) : List String → Machine → Option GoError × Machine :=
  forRange (probeIter env ctx)

/-- The file of an extension, `path.Join(pluginsDir, so+".so")`. -/
def pluginFile (env : Env) (so : String) : String := env.pathJoin env.pluginsDir (so ++ ".so")

/-- One iteration of the loop over the extensions (lines 132-155). -/
def loadPlugin (env : Env) (ctx : Context) (so : String) (m : Machine) :
    Option GoError × Machine :=
  let filename := pluginFile env so
  match env.pluginOpen filename m.trace with
  | .error err =>
    (some ("Failed to load plugin " ++ so ++ ": " ++ err),
      { m with trace := m.trace ++ [Event.pluginOpen so filename (some err)] })
  | .ok plugin =>
    let m1 : Machine := { m with trace := m.trace ++ [Event.pluginOpen so filename none] }
    match plugin.Lookup "NewProbe" with
    | .error err =>
      (some ("Non compliant plugin '" ++ so ++ "': " ++ err),
        { m1 with trace := m1.trace ++ [Event.pluginLookup so (some err)] })
    | .ok symbol =>
      let m2 : Machine := { m1 with trace := m1.trace ++ [Event.pluginLookup so none] }
      match symbol with
      | .other typeName => (some ("Invalid plugin " ++ so ++ ", " ++ typeName), m2)
      | .handlerCtor handlerCtor =>
        let r := handlerCtor ctx m2.trace m2.bundle
        let m3 : Machine := { m2 with trace := m2.trace ++ [Event.pluginCtor so r] }
        match r with
        | (_, some err) => (some ("Failed to instantiate plugin " ++ so ++ ": " ++ err), m3)
        | (handler, none) => (none, { m3 with bundle := m3.bundle.AddHandler so handler })

/-- The loop `for _, so := range probeList` over the extensions (lines 131-156). -/
def pluginLoop (env : Env) (ctx : Context) : List String → Machine → Option GoError × Machine :=
  forRange (loadPlugin env ctx)

/-- The names the platform makes mandatory (lines 85-87). -/
def mandatoryNames (env : Env) : List String :=
  if env.linux then ["netlink", "netns"] else []

/-- The first value of `probeList`: the mandatory names, then the configured ones. -/
def probeList (env : Env) : List String := mandatoryNames env ++ env.probes

/-- What a call of `NewTopologyProbeBundle` returns, and what it did. -/
structure Outcome where
  /-- The returned `*probe.Bundle`. -/
  bundle : Option Bundle
  /-- The returned `error`. -/
  err : Option GoError
  /-- The calls made, in order. -/
  trace : List Event
deriving DecidableEq, Repr

/-- The built-in part of `NewTopologyProbeBundle` (lines 84-125), from the empty bundle. -/
def builtinPhase (env : Env) (ctx : Context) : Option GoError × Machine :=
  match mandatoryBlock env ctx ⟨NewBundle, []⟩ with
  | (some err, m) => (some err, m)
  | (none, m1) => probeLoop env ctx (probeList env) m1

/-- The function `NewTopologyProbeBundle(g, hostNode)`. -/
def NewTopologyProbeBundle (env : Env) (g hostNode : Nat) : Outcome :=
  let ctx : Context := { Graph := g, RootNode := hostNode }
  match builtinPhase env ctx with
  | (some err, m) => ⟨none, some err, m.trace⟩
  | (none, m2) =>
    match pluginLoop env ctx env.plugins m2 with
    | (some err, m) => ⟨none, some err, m.trace⟩
    | (none, m3) => ⟨some m3.bundle, none, m3.trace⟩

/-- Every name with an entry in the bundle is one of the 13 built-in names. -/
def BuiltinNamed (m : Machine) : Prop := ∀ n ∈ m.bundle.names, n ∈ builtinNames

/-- The result of a part of the assembly is fail-fast for the names `L`: a constructor that
returned an error is a constructor of a name of `L`, it is the last thing that happened,
and its error is the error returned. -/
def FailFast (L : List String) (r : Option GoError × Machine) : Prop :=
  ∀ pkg hd e, Event.ctor pkg (hd, some e) ∈ r.2.trace →
    r.1 = some e ∧ r.2.trace.getLast? = some (Event.ctor pkg (hd, some e)) ∧ pkg ∈ L

/-- The shape of the failures of the built-in part for the names `L`: no error, or the
error `unsupported probe <n>` for a name of `L` that is not built-in, or the error of a
constructor, whose call is the last of the trace. -/
def FailureShape (L : List String) (r : Option GoError × Machine) : Prop :=
  r.1 = none ∨
  (∃ n ∈ L, n ∉ builtinNames ∧ r.1 = some ("unsupported probe " ++ n)) ∨
  (∃ pkg hd e, r.2.trace.getLast? = some (Event.ctor pkg (hd, some e)) ∧ r.1 = some e)

/-- An environment in which the Docker probe cannot be built: Linux, `docker` configured,
and `docker.NewProbe` returns an error. -/
def envDockerDown : Env where
  linux := true
  probes := ["docker"]
  pluginsDir := "/usr/lib/skydive"
  plugins := []
  pathJoin := fun d f => d ++ "/" ++ f
  NewProbe := fun pkg _ _ _ =>
    if pkg = "docker" then (none, some "connection refused") else (some pkg.length, none)
  pluginOpen := fun _ _ => .error "no such file"

/-- An environment with a configured name that is not a built-in probe. -/
def envBogus : Env where
  linux := true
  probes := ["docker", "bogus", "lxd"]
  pluginsDir := "/usr/lib/skydive"
  plugins := []
  pathJoin := fun d f => d ++ "/" ++ f
  NewProbe := fun pkg _ _ _ => (some pkg.length, none)
  pluginOpen := fun _ _ => .error "no such file"

/-- The state of an assembly on Linux after the mandatory block, when `netlink` and `netns`
are built with the handlers 7 and 5. -/
def mandatoryBuilt : Machine :=
  ⟨⟨[("netlink", some 7), ("netns", some 5)]⟩,
    [Event.ctor "netlink" (some 7, none), Event.ctor "netns" (some 5, none)]⟩

/-- The state of an assembly on Linux when `netlink`, `netns` and `docker` are built with
the handlers 7, 5 and 6. -/
def dockerBuilt : Machine :=
  ⟨⟨[("netlink", some 7), ("netns", some 5), ("docker", some 6)]⟩,
    [Event.ctor "netlink" (some 7, none), Event.ctor "netns" (some 5, none),
     Event.ctor "docker" (some 6, none)]⟩

/-- An environment off Linux with two configured names that are not built-in probes. -/
def envTwoBogus : Env where
  linux := false
  probes := ["bogus1", "bogus2"]
  pluginsDir := "/usr/lib/skydive"
  plugins := []
  pathJoin := fun d f => d ++ "/" ++ f
  NewProbe := fun pkg _ _ _ => (some pkg.length, none)
  pluginOpen := fun _ _ => .error "no such file"

/-- The state in which `NewTopologyProbeBundle` returns, with the error it returns. -/
def finalState (env : Env) (ctx : Context) : Option GoError × Machine :=
  match builtinPhase env ctx with
  | (some err, m) => (some err, m)
  | (none, m) => pluginLoop env ctx env.plugins m

/-- Whether an event is a call of the constructor of the built-in probe `name`. -/
def Event.isCtorOf (name : String) : Event → Bool
  | .ctor pkg _ => pkg == name
  | _ => false

/-- The bundle holds the handler `hd` for the probe `name`, and the calls of the
constructor of `name` so far are `calls`. -/
def Holds (name : String) (hd : Handler) (calls : List Event) (m : Machine) : Prop :=
  m.bundle.GetHandler name = some hd ∧ m.trace.filter (Event.isCtorOf name) = calls

/-- An environment in which the netlink probe is disabled (its constructor returns a nil
handler and no error) and the configuration lists `netlink` again. -/
def envNetlinkDisabled : Env where
  linux := true
  probes := ["netlink"]
  pluginsDir := "/usr/lib/skydive"
  plugins := []
  pathJoin := fun d f => d ++ "/" ++ f
  NewProbe := fun pkg _ _ _ => if pkg = "netlink" then (none, none) else (some pkg.length, none)
  pluginOpen := fun _ _ => .error "no such file"

/-- An environment in which every probe can be built and the configuration repeats the
mandatory names. -/
def envRepeated : Env where
  linux := true
  probes := ["netlink", "docker", "netns", "netlink"]
  pluginsDir := "/usr/lib/skydive"
  plugins := []
  pathJoin := fun d f => d ++ "/" ++ f
  NewProbe := fun pkg _ _ _ => (some pkg.length, none)
  pluginOpen := fun _ _ => .error "no such file"

/-- The scenario of the spec: Linux, nothing configured, and the netlink probe disabled (its
constructor returns a nil handler and no error). -/
def envNetlinkOff : Env where
  linux := true
  probes := []
  pluginsDir := "/usr/lib/skydive"
  plugins := []
  pathJoin := fun d f => d ++ "/" ++ f
  NewProbe := fun pkg _ _ _ => if pkg = "netlink" then (none, none) else (some pkg.length, none)
  pluginOpen := fun _ _ => .error "no such file"

/-- A module whose `NewProbe` has the wrong type. -/
def wrongModule : Plugin where
  Lookup := fun _ => .ok (.other "func() error")

/-- An environment with the extension `custom`, whose `NewProbe` has the wrong type. -/
def envWrongSignature : Env where
  linux := true
  probes := []
  pluginsDir := "/usr/lib/skydive"
  plugins := ["custom"]
  pathJoin := fun d f => d ++ "/" ++ f
  NewProbe := fun pkg _ _ _ => (some pkg.length, none)
  pluginOpen := fun _ _ => .ok wrongModule

/-- The constructor of an extension that cannot be instantiated. -/
def failingCtor : Context → List Event → Bundle → CtorResult :=
  fun _ _ _ => (none, some "boom")

/-- A module whose `NewProbe` has the right type and returns an error. -/
def failingModule : Plugin where
  Lookup := fun _ => .ok (.handlerCtor failingCtor)

/-- An environment with the extension `custom`, whose constructor returns an error. -/
def envFailingExtension : Env where
  linux := true
  probes := []
  pluginsDir := "/usr/lib/skydive"
  plugins := ["custom"]
  pathJoin := fun d f => d ++ "/" ++ f
  NewProbe := fun pkg _ _ _ => (some pkg.length, none)
  pluginOpen := fun _ _ => .ok failingModule

/-- The constructor of a well-behaved extension. -/
def customCtor : Context → List Event → Bundle → CtorResult :=
  fun _ _ _ => (some 100, none)

/-- A module whose `NewProbe` has the right type and returns a handler. -/
def customModule : Plugin where
  Lookup := fun _ => .ok (.handlerCtor customCtor)

/-- An environment with an extension named like the built-in probe `netlink`. -/
def envExtensionNamedNetlink : Env where
  linux := true
  probes := []
  pluginsDir := "/usr/lib/skydive"
  plugins := ["netlink"]
  pathJoin := fun d f => d ++ "/" ++ f
  NewProbe := fun pkg _ _ _ => (some pkg.length, none)
  pluginOpen := fun _ _ => .ok customModule

/-- The state of an assembly that has built `netlink` with handler 7. -/
def netlinkBuilt : Machine :=
  ⟨⟨[("netlink", some 7)]⟩, [Event.ctor "netlink" (some 7, none)]⟩

/-- Every entry of the bundle holds a handler (none is nil). -/
def AllSet (m : Machine) : Prop := ∀ n ∈ m.bundle.names, m.bundle.GetHandler n ≠ none

/-- The scenario of the spec: the built-in probes `netlink` and `netns` and the extension
`custom`, all of which can be built. -/
def envCustom : Env where
  linux := true
  probes := []
  pluginsDir := "/usr/lib/skydive"
  plugins := ["custom"]
  pathJoin := fun d f => d ++ "/" ++ f
  NewProbe := fun pkg _ _ _ => (some pkg.length, none)
  pluginOpen := fun _ _ => .ok customModule

/-- A call of the assembler into a collaborator, without its result. -/
inductive Call where
  /-- The constructor `<pkg>.NewProbe` of a built-in probe. -/
  | NewProbe (pkg : String)
  /-- The load `plugin.Open(filename)` of the module of an extension. -/
  | Open (so : String) (filename : String)
  /-- The lookup of `NewProbe` in the module of an extension. -/
  | Lookup (so : String)
  /-- The call of the constructor exported by an extension. -/
  | Ctor (so : String)
deriving DecidableEq, Repr

/-- The call an event records. -/
def Event.call : Event → Call
  | .ctor pkg _ => .NewProbe pkg
  | .pluginOpen so filename _ => .Open so filename
  | .pluginLookup so _ => .Lookup so
  | .pluginCtor so _ => .Ctor so

/-- The calls of a complete iteration of the loop over the extensions. -/
def extensionCalls (env : Env) (so : String) : List Call :=
  [.Open so (pluginFile env so), .Lookup so, .Ctor so]

/-- The calls of a complete run of the loop over the extensions. -/
def allExtensionCalls (env : Env) : List String → List Call
  | [] => []
  | so :: rest => extensionCalls env so ++ allExtensionCalls env rest

/-- An environment with configured built-in probes, one of them a repetition of a
mandatory name, and the extension `custom`; everything can be built. -/
def envOrder : Env where
  linux := true
  probes := ["docker", "netlink", "lxd"]
  pluginsDir := "/usr/lib/skydive"
  plugins := ["custom"]
  pathJoin := fun d f => d ++ "/" ++ f
  NewProbe := fun pkg _ _ _ => (some pkg.length, none)
  pluginOpen := fun _ _ => .ok customModule

/-- The constructors of an environment in which the Docker probe depends on the netns
probe: `docker.NewProbe` fails unless the bundle already holds a handler for `netns`. -/
def dependentNewProbe : String → Context → List Event → Bundle → CtorResult :=
  fun pkg _ _ b =>
    if pkg = "docker" then
      if b.GetHandler "netns" ≠ none then (some 6, none) else (none, some "netns is missing")
    else (some pkg.length, none)

/-- An environment with a dependent probe (`docker` needs `netns`) and the extension
`custom`. -/
def envDependent : Env where
  linux := true
  probes := ["docker"]
  pluginsDir := "/usr/lib/skydive"
  plugins := ["custom"]
  pathJoin := fun d f => d ++ "/" ++ f
  NewProbe := dependentNewProbe
  pluginOpen := fun _ _ => .ok customModule

/-- What an iteration of the loop over the built-in names does to the bundle when the
constructor of `x` returns `hx` and no error: nothing if `x` holds a handler or `hx` is
nil, otherwise `hx` is added. -/
def addIfAbsent (b : Bundle) (x : String) (hx : Option Handler) : Bundle :=
  if b.GetHandler x ≠ none then b
  else
    match hx with
    | some h => b.AddHandler x (some h)
    | none => b

/-- The extension `so` does not depend on what happened before or on the bundle: loading
its module gives the same result whatever the trace, and its constructor returns the same
result whatever the trace and the bundle. -/
def Oblivious (env : Env) (ctx : Context) (so : String) : Prop :=
  (∀ t t2, env.pluginOpen (pluginFile env so) t = env.pluginOpen (pluginFile env so) t2) ∧
  (∀ t plugin f, env.pluginOpen (pluginFile env so) t = .ok plugin →
    plugin.Lookup "NewProbe" = .ok (.handlerCtor f) →
    ∀ t1 b1 t2 b2, f ctx t1 b1 = f ctx t2 b2)

/-- Two results of `NewTopologyProbeBundle` hold the same entries: both are bundles with the
same (name, handler) pairs, in some order, or both are nil. -/
def SameEntries : Option Bundle → Option Bundle → Prop
  | some b1, some b2 => b1.Handlers.Perm b2.Handlers
  | none, none => True
  | _, _ => False

/-- An environment with two unrelated built-in probes and an extension; the configured
probe list is set by the caller. -/
def envUnrelated : Env where
  linux := true
  probes := []
  pluginsDir := "/usr/lib/skydive"
  plugins := ["custom"]
  pathJoin := fun d f => d ++ "/" ++ f
  NewProbe := fun pkg _ _ _ => (some pkg.length, none)
  pluginOpen := fun _ _ => .ok customModule

/-! ## The bundle -/

theorem addEntry_names_mem (typ : String) (h : Option Handler) (l : List (String × Option Handler))
    (n : String) :
    n ∈ (addEntry typ h l).map Prod.fst ↔ n = typ ∨ n ∈ l.map Prod.fst := by
  induction l with
  | nil => simp [addEntry]
  | cons p rest ih =>
    obtain ⟨k, v⟩ := p
    by_cases hk : k = typ
    · subst hk
      simp [addEntry]
    · simp only [addEntry, hk, if_false, List.map_cons, List.mem_cons, ih]
      tauto

theorem addEntry_nodup (typ : String) (h : Option Handler) (l : List (String × Option Handler))
    (hl : (l.map Prod.fst).Nodup) : ((addEntry typ h l).map Prod.fst).Nodup := by
  induction l with
  | nil => simp [addEntry]
  | cons p rest ih =>
    obtain ⟨k, v⟩ := p
    simp only [List.map_cons, List.nodup_cons] at hl
    by_cases hk : k = typ
    · subst hk
      simpa [addEntry] using hl
    · simp only [addEntry, if_neg hk, List.map_cons, List.nodup_cons, addEntry_names_mem]
      exact ⟨fun hc => hc.elim hk hl.1, ih hl.2⟩

theorem lookup_addEntry_self (typ : String) (h : Option Handler)
    (l : List (String × Option Handler)) : (addEntry typ h l).lookup typ = some h := by
  induction l with
  | nil => simp [addEntry, List.lookup]
  | cons p rest ih =>
    obtain ⟨k, v⟩ := p
    by_cases hk : k = typ
    · subst hk
      simp [addEntry, List.lookup]
    · have hk2 : (typ == k) = false := by simpa using fun h => hk h.symm
      simp [addEntry, hk, List.lookup, hk2, ih]

theorem lookup_addEntry_ne (typ : String) (h : Option Handler)
    (l : List (String × Option Handler)) (n : String) (hn : n ≠ typ) :
    (addEntry typ h l).lookup n = l.lookup n := by
  induction l with
  | nil =>
    have : (n == typ) = false := by simpa using hn
    simp [addEntry, List.lookup, this]
  | cons p rest ih =>
    obtain ⟨k, v⟩ := p
    by_cases hk : k = typ
    · subst hk
      have : (n == k) = false := by simpa using hn
      simp [addEntry, List.lookup, this]
    · by_cases hnk : n = k
      · subst hnk
        simp [addEntry, hk, List.lookup]
      · have : (n == k) = false := by simpa using hnk
        simp [addEntry, hk, List.lookup, this, ih]

theorem GetHandler_AddHandler_self (b : Bundle) (typ : String) (h : Option Handler) :
    (b.AddHandler typ h).GetHandler typ = h := by
  simp [Bundle.AddHandler, Bundle.GetHandler, lookup_addEntry_self]

theorem GetHandler_AddHandler_ne (b : Bundle) (typ : String) (h : Option Handler) (n : String)
    (hn : n ≠ typ) : (b.AddHandler typ h).GetHandler n = b.GetHandler n := by
  simp [Bundle.AddHandler, Bundle.GetHandler, lookup_addEntry_ne _ _ _ _ hn]

theorem names_AddHandler_mem (b : Bundle) (typ : String) (h : Option Handler) (n : String) :
    n ∈ (b.AddHandler typ h).names ↔ n = typ ∨ n ∈ b.names := by
  simp only [Bundle.AddHandler, Bundle.names, addEntry_names_mem]

theorem names_AddHandler_nodup (b : Bundle) (typ : String) (h : Option Handler)
    (hb : b.names.Nodup) : (b.AddHandler typ h).names.Nodup :=
  addEntry_nodup typ h b.Handlers hb

theorem lookup_eq_none_of_not_mem (l : List (String × Option Handler)) (n : String)
    (hn : n ∉ l.map Prod.fst) : l.lookup n = none := by
  induction l with
  | nil => rfl
  | cons p rest ih =>
    obtain ⟨k, v⟩ := p
    simp only [List.map_cons, List.mem_cons, not_or] at hn
    have : (n == k) = false := by simpa using hn.1
    simp [List.lookup, this, ih hn.2]

theorem GetHandler_eq_none_of_not_mem (b : Bundle) (n : String) (hn : n ∉ b.names) :
    b.GetHandler n = none := by
  simp [Bundle.GetHandler, lookup_eq_none_of_not_mem b.Handlers n hn]

theorem mem_names_of_GetHandler (b : Bundle) (n : String) (hn : b.GetHandler n ≠ none) :
    n ∈ b.names := by
  by_contra hc
  exact hn (GetHandler_eq_none_of_not_mem b n hc)

/-! ## The dispatch -/

theorem NewTopologyProbe_builtin (env : Env) (name : String) (ctx : Context) (m : Machine)
    (h : name ∈ builtinNames) : NewTopologyProbe env name ctx m = callCtor env name ctx m := by
  simp only [builtinNames, List.mem_cons, List.mem_singleton, List.not_mem_nil, or_false] at h
  rcases h with h | h | h | h | h | h | h | h | h | h | h | h | h <;> subst h <;> rfl

theorem NewTopologyProbe_unsupported (env : Env) (name : String) (ctx : Context) (m : Machine)
    (h : name ∉ builtinNames) :
    NewTopologyProbe env name ctx m = ((none, some ("unsupported probe " ++ name)), m) := by
  simp only [builtinNames, List.mem_cons, List.mem_singleton, List.not_mem_nil, or_false,
    not_or] at h
  unfold NewTopologyProbe
  split <;> simp_all

/-! ## Loops -/

theorem forRange_append (body : String → Machine → Option GoError × Machine)
    (xs ys : List String) (m : Machine) :
    forRange body (xs ++ ys) m =
      match forRange body xs m with
      | (some err, m1) => (some err, m1)
      | (none, m1) => forRange body ys m1 := by
  induction xs generalizing m with
  | nil => simp [forRange]
  | cons x rest ih =>
    simp only [List.cons_append, forRange]
    rcases hb : body x m with ⟨_ | err, m1⟩
    · simp [ih]
    · simp

/-- An invariant of the body is an invariant of the loop. -/
theorem forRange_invariant (body : String → Machine → Option GoError × Machine)
    (P : Machine → Prop) (hbody : ∀ x m, P m → P (body x m).2)
    (xs : List String) (m : Machine) (hm : P m) : P (forRange body xs m).2 := by
  induction xs generalizing m with
  | nil => simpa [forRange] using hm
  | cons x rest ih =>
    simp only [forRange]
    have h1 := hbody x m hm
    rcases hb : body x m with ⟨_ | err, m1⟩
    · rw [hb] at h1
      exact ih m1 h1
    · rw [hb] at h1
      exact h1

/-! ## The steps of the assembly, case by case -/

theorem probeIter_cases (env : Env) (ctx : Context) (t : String) (m : Machine) :
    (m.bundle.GetHandler t ≠ none ∧ probeIter env ctx t m = (none, m)) ∨
    (m.bundle.GetHandler t = none ∧ t ∉ builtinNames ∧
      probeIter env ctx t m = (some ("unsupported probe " ++ t), m)) ∨
    (m.bundle.GetHandler t = none ∧ t ∈ builtinNames ∧ ∃ hd e,
      env.NewProbe t ctx m.trace m.bundle = (hd, some e) ∧
      probeIter env ctx t m = (some e, ⟨m.bundle, m.trace ++ [Event.ctor t (hd, some e)]⟩)) ∨
    (m.bundle.GetHandler t = none ∧ t ∈ builtinNames ∧ ∃ hd,
      env.NewProbe t ctx m.trace m.bundle = (some hd, none) ∧
      probeIter env ctx t m =
        (none, ⟨m.bundle.AddHandler t (some hd), m.trace ++ [Event.ctor t (some hd, none)]⟩)) ∨
    (m.bundle.GetHandler t = none ∧ t ∈ builtinNames ∧
      env.NewProbe t ctx m.trace m.bundle = (none, none) ∧
      probeIter env ctx t m = (none, ⟨m.bundle, m.trace ++ [Event.ctor t (none, none)]⟩)) := by
  by_cases hg : m.bundle.GetHandler t = none
  · by_cases hb : t ∈ builtinNames
    · rcases hr : env.NewProbe t ctx m.trace m.bundle with ⟨hd, _ | e⟩
      · cases hd with
        | none =>
          right; right; right; right
          refine ⟨hg, hb, rfl, ?_⟩
          simp [probeIter, hg, NewTopologyProbe_builtin _ _ _ _ hb, callCtor, hr]
        | some hd =>
          right; right; right; left
          refine ⟨hg, hb, hd, rfl, ?_⟩
          simp [probeIter, hg, NewTopologyProbe_builtin _ _ _ _ hb, callCtor, hr]
      · right; right; left
        refine ⟨hg, hb, hd, e, rfl, ?_⟩
        simp [probeIter, hg, NewTopologyProbe_builtin _ _ _ _ hb, callCtor, hr]
    · right; left
      refine ⟨hg, hb, ?_⟩
      simp [probeIter, hg, NewTopologyProbe_unsupported _ _ _ _ hb]
  · left
    exact ⟨hg, by simp [probeIter, hg]⟩

theorem mandatoryBlock_cases (env : Env) (ctx : Context) (m : Machine) :
    (env.linux = false ∧ mandatoryBlock env ctx m = (none, m)) ∨
    (env.linux = true ∧ ∃ hd e,
      env.NewProbe "netlink" ctx m.trace m.bundle = (hd, some e) ∧
      mandatoryBlock env ctx m =
        (some e, ⟨m.bundle, m.trace ++ [Event.ctor "netlink" (hd, some e)]⟩)) ∨
    (env.linux = true ∧ ∃ h1 hd e,
      env.NewProbe "netlink" ctx m.trace m.bundle = (h1, none) ∧
      env.NewProbe "netns" ctx (m.trace ++ [Event.ctor "netlink" (h1, none)])
        (m.bundle.AddHandler "netlink" h1) = (hd, some e) ∧
      mandatoryBlock env ctx m =
        (some e, ⟨m.bundle.AddHandler "netlink" h1,
          m.trace ++ [Event.ctor "netlink" (h1, none)] ++ [Event.ctor "netns" (hd, some e)]⟩)) ∨
    (env.linux = true ∧ ∃ h1 h2,
      env.NewProbe "netlink" ctx m.trace m.bundle = (h1, none) ∧
      env.NewProbe "netns" ctx (m.trace ++ [Event.ctor "netlink" (h1, none)])
        (m.bundle.AddHandler "netlink" h1) = (h2, none) ∧
      mandatoryBlock env ctx m =
        (none, ⟨(m.bundle.AddHandler "netlink" h1).AddHandler "netns" h2,
          m.trace ++ [Event.ctor "netlink" (h1, none)] ++ [Event.ctor "netns" (h2, none)]⟩)) := by
  cases hl : env.linux with
  | false => left; exact ⟨rfl, by simp [mandatoryBlock, hl]⟩
  | true =>
    right
    rcases hr1 : env.NewProbe "netlink" ctx m.trace m.bundle with ⟨h1, _ | e⟩
    · right
      rcases hr2 : env.NewProbe "netns" ctx (m.trace ++ [Event.ctor "netlink" (h1, none)])
        (m.bundle.AddHandler "netlink" h1) with ⟨h2, _ | e⟩
      · right
        refine ⟨rfl, h1, h2, rfl, hr2, ?_⟩
        simp [mandatoryBlock, hl, NewTopologyProbe, callCtor, hr1, hr2]
      · left
        refine ⟨rfl, h1, h2, e, rfl, hr2, ?_⟩
        simp [mandatoryBlock, hl, NewTopologyProbe, callCtor, hr1, hr2]
    · left
      refine ⟨rfl, h1, e, rfl, ?_⟩
      simp [mandatoryBlock, hl, NewTopologyProbe, callCtor, hr1]

theorem loadPlugin_cases (env : Env) (ctx : Context) (so : String) (m : Machine) :
    (∃ err, env.pluginOpen (pluginFile env so) m.trace = .error err ∧
      loadPlugin env ctx so m =
        (some ("Failed to load plugin " ++ so ++ ": " ++ err),
          ⟨m.bundle, m.trace ++ [Event.pluginOpen so (pluginFile env so) (some err)]⟩)) ∨
    (∃ plugin err, env.pluginOpen (pluginFile env so) m.trace = .ok plugin ∧
      plugin.Lookup "NewProbe" = .error err ∧
      loadPlugin env ctx so m =
        (some ("Non compliant plugin '" ++ so ++ "': " ++ err),
          ⟨m.bundle, m.trace ++ [Event.pluginOpen so (pluginFile env so) none] ++
            [Event.pluginLookup so (some err)]⟩)) ∨
    (∃ plugin typeName, env.pluginOpen (pluginFile env so) m.trace = .ok plugin ∧
      plugin.Lookup "NewProbe" = .ok (.other typeName) ∧
      loadPlugin env ctx so m =
        (some ("Invalid plugin " ++ so ++ ", " ++ typeName),
          ⟨m.bundle, m.trace ++ [Event.pluginOpen so (pluginFile env so) none] ++
            [Event.pluginLookup so none]⟩)) ∨
    (∃ plugin f hd err, env.pluginOpen (pluginFile env so) m.trace = .ok plugin ∧
      plugin.Lookup "NewProbe" = .ok (.handlerCtor f) ∧
      f ctx (m.trace ++ [Event.pluginOpen so (pluginFile env so) none] ++
            [Event.pluginLookup so none]) m.bundle = (hd, some err) ∧
      loadPlugin env ctx so m =
        (some ("Failed to instantiate plugin " ++ so ++ ": " ++ err),
          ⟨m.bundle, m.trace ++ [Event.pluginOpen so (pluginFile env so) none] ++
            [Event.pluginLookup so none] ++ [Event.pluginCtor so (hd, some err)]⟩)) ∨
    (∃ plugin f hd, env.pluginOpen (pluginFile env so) m.trace = .ok plugin ∧
      plugin.Lookup "NewProbe" = .ok (.handlerCtor f) ∧
      f ctx (m.trace ++ [Event.pluginOpen so (pluginFile env so) none] ++
            [Event.pluginLookup so none]) m.bundle = (hd, none) ∧
      loadPlugin env ctx so m =
        (none,
          ⟨m.bundle.AddHandler so hd, m.trace ++ [Event.pluginOpen so (pluginFile env so) none] ++
            [Event.pluginLookup so none] ++ [Event.pluginCtor so (hd, none)]⟩)) := by
  rcases ho : env.pluginOpen (pluginFile env so) m.trace with err | plugin
  · left
    refine ⟨err, rfl, ?_⟩
    have ho2 := ho
    simp only [pluginFile] at ho2
    simp [loadPlugin, ho2, pluginFile]
  · right
    have ho2 := ho
    simp only [pluginFile] at ho2
    rcases hk : plugin.Lookup "NewProbe" with err | symbol
    · left
      refine ⟨plugin, err, rfl, hk, ?_⟩
      simp [loadPlugin, ho2, hk, pluginFile]
    · right
      cases symbol with
      | other typeName =>
        left
        refine ⟨plugin, typeName, rfl, hk, ?_⟩
        simp [loadPlugin, ho2, hk, pluginFile]
      | handlerCtor f =>
        right
        rcases hr : f ctx (m.trace ++ [Event.pluginOpen so (pluginFile env so) none] ++
            [Event.pluginLookup so none]) m.bundle with ⟨hd, _ | err⟩
        · right
          refine ⟨plugin, f, hd, rfl, hk, hr, ?_⟩
          have hr2 := hr
          simp only [pluginFile, List.append_assoc, List.singleton_append] at hr2
          simp [loadPlugin, ho2, hk, pluginFile, hr2]
        · left
          refine ⟨plugin, f, hd, err, rfl, hk, hr, ?_⟩
          have hr2 := hr
          simp only [pluginFile, List.append_assoc, List.singleton_append] at hr2
          simp [loadPlugin, ho2, hk, pluginFile, hr2]

/-! ## Only built-in names enter the bundle before the extensions -/

theorem probeIter_builtinNamed (env : Env) (ctx : Context) (t : String) (m : Machine)
    (hm : BuiltinNamed m) : BuiltinNamed (probeIter env ctx t m).2 := by
  rcases probeIter_cases env ctx t m with ⟨_, h⟩ | ⟨_, _, h⟩ | ⟨_, _, _, _, _, h⟩ |
    ⟨_, hb, _, _, h⟩ | ⟨_, _, _, h⟩ <;> rw [h]
  · exact hm
  · exact hm
  · exact hm
  · intro n hn
    rcases (names_AddHandler_mem _ _ _ _).1 hn with h1 | h1
    · exact h1 ▸ hb
    · exact hm n h1
  · exact hm

theorem mandatoryBlock_builtinNamed (env : Env) (ctx : Context) (m : Machine)
    (hm : BuiltinNamed m) : BuiltinNamed (mandatoryBlock env ctx m).2 := by
  rcases mandatoryBlock_cases env ctx m with ⟨_, h⟩ | ⟨_, _, _, _, h⟩ | ⟨_, _, _, _, _, _, h⟩ |
    ⟨_, _, _, _, _, h⟩ <;> rw [h]
  · exact hm
  · exact hm
  · intro n hn
    rcases (names_AddHandler_mem _ _ _ _).1 hn with h1 | h1
    · subst h1; decide
    · exact hm n h1
  · intro n hn
    rcases (names_AddHandler_mem _ _ _ _).1 hn with h1 | h1
    · subst h1; decide
    · rcases (names_AddHandler_mem _ _ _ _).1 h1 with h2 | h2
      · subst h2; decide
      · exact hm n h2

theorem probeLoop_builtinNamed (env : Env) (ctx : Context) (l : List String) (m : Machine)
    (hm : BuiltinNamed m) : BuiltinNamed (probeLoop env ctx l m).2 :=
  forRange_invariant _ BuiltinNamed (probeIter_builtinNamed env ctx) l m hm

theorem probeIter_unsupported (env : Env) (ctx : Context) (t : String) (m : Machine)
    (hm : BuiltinNamed m) (ht : t ∉ builtinNames) :
    probeIter env ctx t m = (some ("unsupported probe " ++ t), m) := by
  have hg : m.bundle.GetHandler t = none :=
    GetHandler_eq_none_of_not_mem _ _ (fun hc => ht (hm t hc))
  simp [probeIter, hg, NewTopologyProbe_unsupported _ _ _ _ ht]

/-- A loop whose body fails on `n` whenever the invariant holds fails when `n` is listed. -/
theorem forRange_fails_of_mem (body : String → Machine → Option GoError × Machine)
    (P : Machine → Prop) (hbody : ∀ x m, P m → P (body x m).2) (n : String)
    (hn : ∀ m, P m → (body n m).1 ≠ none)
    (xs : List String) (hmem : n ∈ xs) (m : Machine) (hm : P m) :
    (forRange body xs m).1 ≠ none := by
  induction xs generalizing m with
  | nil => simp at hmem
  | cons x rest ih =>
    simp only [forRange]
    have h1 := hbody x m hm
    rcases hb : body x m with ⟨_ | err, m1⟩
    · rw [hb] at h1
      rcases List.mem_cons.1 hmem with hx | hx
      · subst hx
        have := hn m hm
        rw [hb] at this
        exact absurd rfl this
      · exact ih hx m1 h1
    · simp

theorem builtinPhase_probes_irrel (env : Env) (ctx : Context) (l : List String) :
    builtinPhase { env with probes := l } ctx =
      match mandatoryBlock env ctx ⟨NewBundle, []⟩ with
      | (some err, m) => (some err, m)
      | (none, m1) => probeLoop env ctx (mandatoryNames env ++ l) m1 := rfl

/-! ## Fail-fast -/

/-- A property of the results of the body, started from a result without error, is a
property of the result of the loop. -/
theorem forRange_result (body : String → Machine → Option GoError × Machine)
    (Q : Option GoError × Machine → Prop) (xs : List String)
    (hbody : ∀ x ∈ xs, ∀ m, Q (none, m) → Q (body x m))
    (m : Machine) (hm : Q (none, m)) : Q (forRange body xs m) := by
  induction xs generalizing m with
  | nil => simpa [forRange] using hm
  | cons x rest ih =>
    simp only [forRange]
    have h1 := hbody x (List.mem_cons_self _ _) m hm
    rcases hb : body x m with ⟨_ | err, m1⟩
    · rw [hb] at h1
      exact ih (fun y hy => hbody y (List.mem_cons_of_mem _ hy)) m1 h1
    · rw [hb] at h1
      exact h1

theorem FailFast_none_iff (L : List String) (m : Machine) :
    FailFast L (none, m) ↔ ∀ pkg hd e, Event.ctor pkg (hd, some e) ∉ m.trace := by
  constructor
  · intro h pkg hd e hmem
    exact absurd (h pkg hd e hmem).1 (by simp)
  · intro h pkg hd e hmem
    exact absurd hmem (h pkg hd e)

theorem FailFast_append_ok (L : List String) (m : Machine) (hm : FailFast L (none, m))
    (eo : Option GoError) (b : Bundle) (ext : List Event)
    (hext : ∀ pkg hd e, Event.ctor pkg (hd, some e) ∉ ext) :
    FailFast L (eo, ⟨b, m.trace ++ ext⟩) := by
  intro pkg hd e hmem
  rcases List.mem_append.1 hmem with h | h
  · exact absurd h ((FailFast_none_iff L m).1 hm pkg hd e)
  · exact absurd h (hext pkg hd e)

theorem FailFast_append_fail (L : List String) (m : Machine) (hm : FailFast L (none, m))
    (b : Bundle) (pkg : String) (hd : Option Handler) (e : GoError) (hp : pkg ∈ L) :
    FailFast L (some e, ⟨b, m.trace ++ [Event.ctor pkg (hd, some e)]⟩) := by
  intro pkg2 hd2 e2 hmem
  rcases List.mem_append.1 hmem with h | h
  · exact absurd h ((FailFast_none_iff L m).1 hm pkg2 hd2 e2)
  · simp only [List.mem_singleton, Event.ctor.injEq, Prod.mk.injEq, Option.some.injEq] at h
    obtain ⟨h1, h2, h3⟩ := h
    subst h1 h2 h3
    exact ⟨rfl, by simp, hp⟩

theorem probeIter_failFast (L : List String) (env : Env) (ctx : Context) (t : String)
    (ht : t ∈ L) (m : Machine) (hm : FailFast L (none, m)) :
    FailFast L (probeIter env ctx t m) := by
  rcases probeIter_cases env ctx t m with ⟨_, h⟩ | ⟨_, _, h⟩ | ⟨_, _, hd, e, _, h⟩ |
    ⟨_, hb, hd, _, h⟩ | ⟨_, _, _, h⟩ <;> rw [h]
  · exact hm
  · intro pkg hd e hmem
    exact absurd hmem ((FailFast_none_iff L m).1 hm pkg hd e)
  · exact FailFast_append_fail L m hm _ t hd e ht
  · exact FailFast_append_ok L m hm _ _ _ (by simp)
  · exact FailFast_append_ok L m hm _ _ _ (by simp)

theorem mandatoryBlock_failFast (L : List String) (env : Env) (ctx : Context)
    (hL : ∀ n ∈ mandatoryNames env, n ∈ L) (m : Machine) (hm : FailFast L (none, m)) :
    FailFast L (mandatoryBlock env ctx m) := by
  rcases mandatoryBlock_cases env ctx m with ⟨_, h⟩ | ⟨hl, hd, e, _, h⟩ |
    ⟨hl, h1, hd, e, _, _, h⟩ | ⟨_, _, _, _, _, h⟩ <;> rw [h]
  · exact hm
  · exact FailFast_append_fail L m hm _ _ hd e (hL _ (by simp [mandatoryNames, hl]))
  · have h2 : FailFast L (none, (⟨m.bundle, m.trace ++ [Event.ctor "netlink" (h1, none)]⟩ : Machine)) :=
      FailFast_append_ok L m hm _ _ _ (by simp)
    exact FailFast_append_fail L _ h2 _ _ hd e (hL _ (by simp [mandatoryNames, hl]))
  · rw [List.append_assoc]
    exact FailFast_append_ok L m hm _ _ _ (by simp)

theorem loadPlugin_failFast (L : List String) (env : Env) (ctx : Context) (so : String)
    (m : Machine) (hm : FailFast L (none, m)) : FailFast L (loadPlugin env ctx so m) := by
  rcases loadPlugin_cases env ctx so m with ⟨_, _, h⟩ | ⟨_, _, _, _, h⟩ | ⟨_, _, _, _, h⟩ |
    ⟨_, _, _, _, _, _, _, h⟩ | ⟨_, _, _, _, _, _, h⟩ <;> rw [h] <;>
    (try simp only [List.append_assoc]) <;>
    exact FailFast_append_ok L m hm _ _ _ (by simp)

theorem builtinPhase_failFast (env : Env) (ctx : Context) :
    FailFast (probeList env) (builtinPhase env ctx) := by
  have h0 : FailFast (probeList env) (none, (⟨NewBundle, []⟩ : Machine)) := by
    intro pkg hd e hmem
    simp at hmem
  have h1 := mandatoryBlock_failFast (probeList env) env ctx
    (fun n hn => List.mem_append_left _ hn) _ h0
  unfold builtinPhase
  rcases hb : mandatoryBlock env ctx ⟨NewBundle, []⟩ with ⟨_ | err, m1⟩
  · rw [hb] at h1
    exact forRange_result _ (FailFast (probeList env)) _
      (fun x hx m hm => probeIter_failFast _ env ctx x hx m hm) m1 h1
  · rw [hb] at h1
    exact h1

theorem assembly_of_builtin_error (env : Env) (g hostNode : Nat) (err : GoError) (m : Machine)
    (hb : builtinPhase env ⟨g, hostNode⟩ = (some err, m)) :
    NewTopologyProbeBundle env g hostNode = ⟨none, some err, m.trace⟩ := by
  simp [NewTopologyProbeBundle, hb]

theorem assembly_of_plugin_error (env : Env) (g hostNode : Nat) (err : GoError)
    (m1 m : Machine) (hb : builtinPhase env ⟨g, hostNode⟩ = (none, m1))
    (hp : pluginLoop env ⟨g, hostNode⟩ env.plugins m1 = (some err, m)) :
    NewTopologyProbeBundle env g hostNode = ⟨none, some err, m.trace⟩ := by
  simp [NewTopologyProbeBundle, hb, hp]

theorem assembly_of_success (env : Env) (g hostNode : Nat)
    (m1 m : Machine) (hb : builtinPhase env ⟨g, hostNode⟩ = (none, m1))
    (hp : pluginLoop env ⟨g, hostNode⟩ env.plugins m1 = (none, m)) :
    NewTopologyProbeBundle env g hostNode = ⟨some m.bundle, none, m.trace⟩ := by
  simp [NewTopologyProbeBundle, hb, hp]

theorem assembly_failFast (env : Env) (g hostNode : Nat) :
    ∃ r : Option GoError × Machine, FailFast (probeList env) r ∧
      (NewTopologyProbeBundle env g hostNode).err = r.1 ∧
      (NewTopologyProbeBundle env g hostNode).trace = r.2.trace ∧
      (r.1 ≠ none → (NewTopologyProbeBundle env g hostNode).bundle = none) := by
  have h1 := builtinPhase_failFast env ⟨g, hostNode⟩
  rcases hb : builtinPhase env ⟨g, hostNode⟩ with ⟨_ | err, m1⟩
  · rw [hb] at h1
    have h2 := forRange_result (loadPlugin env ⟨g, hostNode⟩) (FailFast (probeList env))
      env.plugins (fun x _ m hm => loadPlugin_failFast _ env _ x m hm) m1 h1
    rcases hp : pluginLoop env ⟨g, hostNode⟩ env.plugins m1 with ⟨_ | err, m2⟩
    · rw [assembly_of_success env g hostNode m1 m2 hb hp]
      refine ⟨(none, m2), ?_, rfl, rfl, by simp⟩
      rw [pluginLoop] at hp
      rwa [hp] at h2
    · rw [assembly_of_plugin_error env g hostNode err m1 m2 hb hp]
      refine ⟨(some err, m2), ?_, rfl, rfl, by simp⟩
      rw [pluginLoop] at hp
      rwa [hp] at h2
  · rw [hb] at h1
    rw [assembly_of_builtin_error env g hostNode err m1 hb]
    exact ⟨(some err, m1), h1, rfl, rfl, by simp⟩

/-! ## Unsupported names -/

theorem builtinPhase_builtinNamed (env : Env) (ctx : Context) :
    BuiltinNamed (builtinPhase env ctx).2 := by
  have h0 : BuiltinNamed (⟨NewBundle, []⟩ : Machine) := by
    intro n hn
    simp [NewBundle, Bundle.names] at hn
  have h1 := mandatoryBlock_builtinNamed env ctx _ h0
  unfold builtinPhase
  rcases hb : mandatoryBlock env ctx ⟨NewBundle, []⟩ with ⟨_ | err, m1⟩
  · rw [hb] at h1
    exact probeLoop_builtinNamed env ctx _ m1 h1
  · rw [hb] at h1
    exact h1

theorem builtinPhase_fails_of_unsupported (env : Env) (ctx : Context) (name : String)
    (hname : name ∉ builtinNames) (hmem : name ∈ env.probes) :
    (builtinPhase env ctx).1 ≠ none := by
  have h0 : BuiltinNamed (⟨NewBundle, []⟩ : Machine) := by
    intro n hn
    simp [NewBundle, Bundle.names] at hn
  have h1 := mandatoryBlock_builtinNamed env ctx _ h0
  unfold builtinPhase
  rcases hb : mandatoryBlock env ctx ⟨NewBundle, []⟩ with ⟨_ | err, m1⟩
  · rw [hb] at h1
    exact forRange_fails_of_mem _ BuiltinNamed (probeIter_builtinNamed env ctx) name
      (fun m hm => by rw [probeIter_unsupported env ctx name m hm hname]; simp)
      (probeList env) (List.mem_append_right _ hmem) m1 h1
  · simp

theorem probeIter_failureShape (L : List String) (env : Env) (ctx : Context) (x : String)
    (hx : x ∈ L) (m : Machine) : FailureShape L (probeIter env ctx x m) := by
  rcases probeIter_cases env ctx x m with ⟨_, h⟩ | ⟨_, hb, h⟩ | ⟨_, _, hd, e, _, h⟩ |
    ⟨_, _, hd, _, h⟩ | ⟨_, _, _, h⟩ <;> rw [h]
  · exact Or.inl rfl
  · exact Or.inr (Or.inl ⟨x, hx, hb, rfl⟩)
  · exact Or.inr (Or.inr ⟨x, hd, e, by simp, rfl⟩)
  · exact Or.inl rfl
  · exact Or.inl rfl

theorem builtinPhase_failureShape (env : Env) (ctx : Context) :
    FailureShape env.probes (builtinPhase env ctx) := by
  have hL : FailureShape (probeList env) (builtinPhase env ctx) := by
    unfold builtinPhase
    rcases mandatoryBlock_cases env ctx ⟨NewBundle, []⟩ with ⟨_, h⟩ | ⟨_, hd, e, _, h⟩ |
      ⟨_, h1, hd, e, _, _, h⟩ | ⟨_, _, _, _, _, h⟩ <;> rw [h]
    · exact forRange_result _ (FailureShape (probeList env)) _
        (fun x hx m _ => probeIter_failureShape _ env ctx x hx m) _ (Or.inl rfl)
    · exact Or.inr (Or.inr ⟨"netlink", hd, e, by simp, rfl⟩)
    · exact Or.inr (Or.inr ⟨"netns", hd, e, by simp, rfl⟩)
    · exact forRange_result _ (FailureShape (probeList env)) _
        (fun x hx m _ => probeIter_failureShape _ env ctx x hx m) _ (Or.inl rfl)
  rcases hL with h | ⟨n, hn, hb, h⟩ | h
  · exact Or.inl h
  · refine Or.inr (Or.inl ⟨n, ?_, hb, h⟩)
    rcases List.mem_append.1 hn with hm | hm
    · exfalso
      apply hb
      by_cases hl : env.linux = true
      · simp only [mandatoryNames, hl, if_true, List.mem_cons, List.mem_singleton,
          List.not_mem_nil, or_false] at hm
        rcases hm with hm | hm <;> subst hm <;> decide
      · simp [mandatoryNames, hl] at hm
    · exact hm
  · exact Or.inr (Or.inr h)

/-- C2 (amended): a name outside the 13 built-in names makes `NewTopologyProbe` return a nil
handler and the error `unsupported probe <name>`, with no constructor called and the bundle
untouched (the state is returned as it was); a configuration that lists such a name never
yields a bundle and always yields an error, which is `unsupported probe <n>` for a
configured name `n` that is not built-in, or the error of a constructor whose call was the
last; and when the built-in part of the assembly succeeds for the names configured before
it, the assembly returns the error `unsupported probe <name>` of that very name, without
a bundle and without any further call. -/
theorem unsupported_probe_rejected (env : Env) (name : String) (g hostNode : Nat)
    (hname : name ∉ builtinNames) :
    (∀ m, NewTopologyProbe env name ⟨g, hostNode⟩ m =
      ((none, some ("unsupported probe " ++ name)), m)) ∧
    (name ∈ env.probes →
      (NewTopologyProbeBundle env g hostNode).bundle = none ∧
      (NewTopologyProbeBundle env g hostNode).err ≠ none ∧
      ((∃ n ∈ env.probes, n ∉ builtinNames ∧
          (NewTopologyProbeBundle env g hostNode).err = some ("unsupported probe " ++ n)) ∨
        (∃ pkg hd e,
          (NewTopologyProbeBundle env g hostNode).trace.getLast? =
            some (Event.ctor pkg (hd, some e)) ∧
          (NewTopologyProbeBundle env g hostNode).err = some e))) ∧
    (∀ pre post m, env.probes = pre ++ name :: post →
      builtinPhase { env with probes := pre } ⟨g, hostNode⟩ = (none, m) →
      NewTopologyProbeBundle env g hostNode =
        ⟨none, some ("unsupported probe " ++ name), m.trace⟩) := by
  refine ⟨fun m => NewTopologyProbe_unsupported env name _ m hname, ?_, ?_⟩
  · intro hmem
    have h := builtinPhase_fails_of_unsupported env ⟨g, hostNode⟩ name hname hmem
    have hs := builtinPhase_failureShape env ⟨g, hostNode⟩
    rcases hb : builtinPhase env ⟨g, hostNode⟩ with ⟨_ | err, m1⟩
    · rw [hb] at h
      exact absurd rfl h
    · rw [hb] at hs
      rw [assembly_of_builtin_error env g hostNode err m1 hb]
      refine ⟨rfl, by simp, ?_⟩
      rcases hs with hs | hs | hs
      · simp at hs
      · exact Or.inl hs
      · exact Or.inr hs
  · intro pre post m hprobes hpre
    have hinv := builtinPhase_builtinNamed { env with probes := pre } ⟨g, hostNode⟩
    rw [hpre] at hinv
    rw [builtinPhase_probes_irrel] at hpre
    apply assembly_of_builtin_error
    unfold builtinPhase
    rcases hb : mandatoryBlock env ⟨g, hostNode⟩ ⟨NewBundle, []⟩ with ⟨_ | err, m1⟩
    · rw [hb] at hpre
      simp only at hpre ⊢
      rw [probeList, hprobes, ← List.append_assoc, probeLoop, forRange_append]
      rw [probeLoop] at hpre
      rw [hpre]
      simp only [forRange]
      rw [probeIter_unsupported env _ name m hinv hname]
    · rw [hb] at hpre
      simp at hpre

/-- The amended C2 at a configuration that lists `bogus` after `docker`. -/
theorem unsupported_probe_rejected_witness :
    "bogus" ∉ builtinNames ∧
    NewTopologyProbeBundle envBogus 0 0 =
      ⟨none, some "unsupported probe bogus",
        [Event.ctor "netlink" (some 7, none), Event.ctor "netns" (some 5, none),
         Event.ctor "docker" (some 6, none)]⟩ ∧
    ((∀ m, NewTopologyProbe envBogus "bogus" ⟨0, 0⟩ m =
      ((none, some ("unsupported probe " ++ "bogus")), m)) ∧
    ("bogus" ∈ envBogus.probes →
      (NewTopologyProbeBundle envBogus 0 0).bundle = none ∧
      (NewTopologyProbeBundle envBogus 0 0).err ≠ none ∧
      ((∃ n ∈ envBogus.probes, n ∉ builtinNames ∧
          (NewTopologyProbeBundle envBogus 0 0).err = some ("unsupported probe " ++ n)) ∨
        (∃ pkg hd e,
          (NewTopologyProbeBundle envBogus 0 0).trace.getLast? =
            some (Event.ctor pkg (hd, some e)) ∧
          (NewTopologyProbeBundle envBogus 0 0).err = some e))) ∧
    (∀ pre post m, envBogus.probes = pre ++ "bogus" :: post →
      builtinPhase { envBogus with probes := pre } ⟨0, 0⟩ = (none, m) →
      NewTopologyProbeBundle envBogus 0 0 =
        ⟨none, some ("unsupported probe " ++ "bogus"), m.trace⟩)) :=
  ⟨by decide, by decide, unsupported_probe_rejected envBogus "bogus" 0 0 (by decide)⟩

/-! ## The first failure of a built-in name -/

theorem assembly_of_loop_error (env : Env) (g hostNode : Nat) (pre post : List String)
    (n : String) (m1 m m2 : Machine) (e : GoError)
    (hlist : probeList env = pre ++ n :: post)
    (hblock : mandatoryBlock env ⟨g, hostNode⟩ ⟨NewBundle, []⟩ = (none, m1))
    (hpre : probeLoop env ⟨g, hostNode⟩ pre m1 = (none, m))
    (hiter : probeIter env ⟨g, hostNode⟩ n m = (some e, m2)) :
    NewTopologyProbeBundle env g hostNode = ⟨none, some e, m2.trace⟩ := by
  apply assembly_of_builtin_error
  simp only [builtinPhase, hblock]
  rw [hlist, probeLoop, forRange_append]
  rw [probeLoop] at hpre
  rw [hpre]
  simp [forRange, hiter]

theorem name_infix_unsupported (n : String) :
    n.toList <:+: ("unsupported probe " ++ n).toList := by
  have h : ("unsupported probe " ++ n).toList = "unsupported probe ".toList ++ n.toList := by
    simp [String.toList]
  rw [h]
  exact (List.suffix_append _ _).isInfix

/-- C1 (amended): the first failure of a built-in name ends the assembly, with no bundle
and with the error of that failure, unchanged.
(1) Whenever the constructor of a built-in probe returns an error, in the mandatory block
or in the loop, no bundle is returned, the error returned is the error of that constructor
(it names the probe only if the constructor's message does), that call is the last thing
the assembly did, and the probe is one of the desired list (mandatory names, then
configured names).
(2) When the mandatory block and the loop succeed for the names of the desired list before
`n`, `n` holds no handler and `NewTopologyProbe` returns an error for `n`, the assembly
returns no bundle and that error, in the state `NewTopologyProbe` left; if `n` is not a
built-in name, the error is `unsupported probe <n>`, which contains `n`, and nothing was
called for it.
(3) No error is ever returned together with a bundle. -/
theorem constructor_error_aborts (env : Env) (g hostNode : Nat) :
    (∀ pkg hd e,
      Event.ctor pkg (hd, some e) ∈ (NewTopologyProbeBundle env g hostNode).trace →
      (NewTopologyProbeBundle env g hostNode).bundle = none ∧
      (NewTopologyProbeBundle env g hostNode).err = some e ∧
      (NewTopologyProbeBundle env g hostNode).trace.getLast? =
        some (Event.ctor pkg (hd, some e)) ∧
      pkg ∈ probeList env) ∧
    (∀ pre n post m1 m hd e m2,
      probeList env = pre ++ n :: post →
      mandatoryBlock env ⟨g, hostNode⟩ ⟨NewBundle, []⟩ = (none, m1) →
      probeLoop env ⟨g, hostNode⟩ pre m1 = (none, m) →
      m.bundle.GetHandler n = none →
      NewTopologyProbe env n ⟨g, hostNode⟩ m = ((hd, some e), m2) →
      NewTopologyProbeBundle env g hostNode = ⟨none, some e, m2.trace⟩ ∧
      (n ∉ builtinNames →
        e = "unsupported probe " ++ n ∧ n.toList <:+: e.toList ∧ m2 = m)) ∧
    ((NewTopologyProbeBundle env g hostNode).err ≠ none →
      (NewTopologyProbeBundle env g hostNode).bundle = none) := by
  obtain ⟨r, hr, herr, htrace, hbundle⟩ := assembly_failFast env g hostNode
  refine ⟨?_, ?_, fun h => hbundle (herr ▸ h)⟩
  · intro pkg hd e hfail
    rw [htrace] at hfail
    obtain ⟨h1, h2, h3⟩ := hr pkg hd e hfail
    exact ⟨hbundle (by simp [h1]), by rw [herr, h1], by rw [htrace, h2], h3⟩
  · intro pre n post m1 m hd e m2 hlist hblock hpre hg hcall
    have hiter : probeIter env ⟨g, hostNode⟩ n m = (some e, m2) := by
      simp [probeIter, hg, hcall]
    refine ⟨assembly_of_loop_error env g hostNode pre post n m1 m m2 e hlist hblock hpre hiter,
      ?_⟩
    intro hn
    rw [NewTopologyProbe_unsupported env n _ m hn] at hcall
    simp only [Prod.mk.injEq, Option.some.injEq] at hcall
    obtain ⟨⟨_, he⟩, hm⟩ := hcall
    subst he
    exact ⟨rfl, name_infix_unsupported n, hm.symm⟩

/-- C1 (as stated, refuted): on Linux with `docker` configured, `docker` is the third name
of the desired list and the first whose construction fails; no bundle is returned, but the
error returned is the constructor's own `connection refused`, which does not contain the
name `docker`. -/
theorem constructor_error_need_not_name_probe :
    NewTopologyProbeBundle envDockerDown 0 0 =
      ⟨none, some "connection refused",
        [Event.ctor "netlink" (some 7, none), Event.ctor "netns" (some 5, none),
         Event.ctor "docker" (none, some "connection refused")]⟩ ∧
    probeList envDockerDown = ["netlink", "netns", "docker"] ∧
    ¬ ("docker".toList <:+: "connection refused".toList) := by
  refine ⟨by decide, by decide, by decide⟩

/-- The amended C1 at the Docker failure (a constructor error) and at the configured name
`bogus` (an unsupported name reached after `netlink`, `netns` and `docker`). -/
theorem constructor_error_aborts_witness :
    (Event.ctor "docker" (none, some "connection refused") ∈
        (NewTopologyProbeBundle envDockerDown 0 0).trace ∧
      (NewTopologyProbeBundle envDockerDown 0 0).bundle = none ∧
      (NewTopologyProbeBundle envDockerDown 0 0).err = some "connection refused" ∧
      (NewTopologyProbeBundle envDockerDown 0 0).trace.getLast? =
        some (Event.ctor "docker" (none, some "connection refused")) ∧
      "docker" ∈ probeList envDockerDown) ∧
    (probeList envBogus = ["netlink", "netns", "docker"] ++ "bogus" :: ["lxd"] ∧
      mandatoryBlock envBogus ⟨0, 0⟩ ⟨NewBundle, []⟩ = (none, mandatoryBuilt) ∧
      probeLoop envBogus ⟨0, 0⟩ ["netlink", "netns", "docker"] mandatoryBuilt =
        (none, dockerBuilt) ∧
      dockerBuilt.bundle.GetHandler "bogus" = none ∧
      NewTopologyProbe envBogus "bogus" ⟨0, 0⟩ dockerBuilt =
        ((none, some "unsupported probe bogus"), dockerBuilt) ∧
      NewTopologyProbeBundle envBogus 0 0 =
        ⟨none, some "unsupported probe bogus", dockerBuilt.trace⟩ ∧
      ("bogus" ∉ builtinNames →
        "unsupported probe bogus" = "unsupported probe " ++ "bogus" ∧
        "bogus".toList <:+: "unsupported probe bogus".toList ∧
        dockerBuilt = dockerBuilt)) :=
  ⟨⟨by decide,
      (constructor_error_aborts envDockerDown 0 0).1 "docker" none "connection refused"
        (by decide)⟩,
    rfl, rfl, rfl, rfl, rfl,
    (constructor_error_aborts envBogus 0 0).2.1 ["netlink", "netns", "docker"] "bogus" ["lxd"]
      mandatoryBuilt dockerBuilt none "unsupported probe bogus" dockerBuilt rfl rfl rfl rfl
      rfl⟩

/-- C2 (as stated, refuted): with the two unsupported names `bogus1` and `bogus2`
configured, the assembly aborts at the first one: `bogus2` is configured and unsupported,
but the error returned is `unsupported probe bogus1`, not `unsupported probe bogus2`. -/
theorem later_unsupported_probe_not_reported :
    "bogus2" ∈ envTwoBogus.probes ∧ "bogus2" ∉ builtinNames ∧
    NewTopologyProbeBundle envTwoBogus 0 0 = ⟨none, some "unsupported probe bogus1", []⟩ ∧
    (NewTopologyProbeBundle envTwoBogus 0 0).err ≠ some "unsupported probe bogus2" := by
  refine ⟨by decide, by decide, by decide, by decide⟩

/-! ## A probe that holds a handler is not built again -/

theorem filter_entries_of_lookup (l : List (String × Option Handler)) (n : String)
    (v : Option Handler) (hl : (l.map Prod.fst).Nodup) (hv : l.lookup n = some v) :
    l.filter (fun p => p.1 = n) = [(n, v)] := by
  induction l with
  | nil => simp [List.lookup] at hv
  | cons p rest ih =>
    obtain ⟨k, w⟩ := p
    simp only [List.map_cons, List.nodup_cons] at hl
    by_cases hk : k = n
    · subst hk
      simp only [List.lookup, beq_self_eq_true, Option.some.injEq] at hv
      subst hv
      have : rest.filter (fun p => p.1 = k) = [] := by
        rw [List.filter_eq_nil_iff]
        intro p hp hc
        simp only [decide_eq_true_eq] at hc
        exact hl.1 (hc ▸ List.mem_map_of_mem Prod.fst hp)
      simp [List.filter_cons, this]
    · have hnk : (n == k) = false := by simpa using fun h => hk h.symm
      simp only [List.lookup, hnk] at hv
      simp [List.filter_cons, hk, ih hl.2 hv]

theorem lookup_of_GetHandler (b : Bundle) (n : String) (hd : Handler)
    (h : b.GetHandler n = some hd) : b.Handlers.lookup n = some (some hd) := by
  unfold Bundle.GetHandler at h
  rcases hl : b.Handlers.lookup n with _ | v
  · rw [hl] at h
    simp at h
  · rw [hl] at h
    simp only [Option.join] at h
    simpa using h

theorem ne_of_GetHandler (b : Bundle) (n t : String) (hd : Handler)
    (hn : b.GetHandler n = some hd) (ht : b.GetHandler t = none) : t ≠ n := by
  intro hc
  subst hc
  rw [hn] at ht
  exact absurd ht (by simp)

theorem filter_isCtorOf_append_ctor (name t : String) (r : CtorResult) (tr : List Event)
    (ht : t ≠ name) :
    (tr ++ [Event.ctor t r]).filter (Event.isCtorOf name) = tr.filter (Event.isCtorOf name) := by
  have : (t == name) = false := by simpa using ht
  simp [List.filter_append, List.filter_cons, Event.isCtorOf, this]

theorem probeIter_holds (env : Env) (ctx : Context) (name : String) (hd : Handler)
    (calls : List Event) (t : String) (m : Machine) (hm : Holds name hd calls m) :
    Holds name hd calls (probeIter env ctx t m).2 := by
  rcases probeIter_cases env ctx t m with ⟨_, h⟩ | ⟨_, _, h⟩ | ⟨hg, _, _, _, _, h⟩ |
    ⟨hg, _, _, _, h⟩ | ⟨hg, _, _, h⟩ <;> rw [h]
  · exact hm
  · exact hm
  · exact ⟨hm.1, by
      rw [filter_isCtorOf_append_ctor name t _ _ (ne_of_GetHandler _ _ _ _ hm.1 hg)]
      exact hm.2⟩
  · have hne := ne_of_GetHandler _ _ _ _ hm.1 hg
    exact ⟨by
      show (m.bundle.AddHandler t _).GetHandler name = some hd
      rw [GetHandler_AddHandler_ne _ _ _ _ (Ne.symm hne)]
      exact hm.1, by
      rw [filter_isCtorOf_append_ctor name t _ _ hne]
      exact hm.2⟩
  · exact ⟨hm.1, by
      rw [filter_isCtorOf_append_ctor name t _ _ (ne_of_GetHandler _ _ _ _ hm.1 hg)]
      exact hm.2⟩

theorem probeLoop_holds (env : Env) (ctx : Context) (name : String) (hd : Handler)
    (calls : List Event) (l : List String) (m : Machine) (hm : Holds name hd calls m) :
    Holds name hd calls (probeLoop env ctx l m).2 :=
  forRange_invariant _ (Holds name hd calls) (probeIter_holds env ctx name hd calls) l m hm

theorem assembly_eq_finalState (env : Env) (g hostNode : Nat) :
    NewTopologyProbeBundle env g hostNode =
      ⟨match (finalState env ⟨g, hostNode⟩).1 with
        | none => some (finalState env ⟨g, hostNode⟩).2.bundle
        | some _ => none,
        (finalState env ⟨g, hostNode⟩).1, (finalState env ⟨g, hostNode⟩).2.trace⟩ := by
  unfold finalState
  rcases hb : builtinPhase env ⟨g, hostNode⟩ with ⟨_ | err, m1⟩
  · rcases hp : pluginLoop env ⟨g, hostNode⟩ env.plugins m1 with ⟨_ | err, m2⟩
    · rw [assembly_of_success env g hostNode m1 m2 hb hp]
      simp [hp]
    · rw [assembly_of_plugin_error env g hostNode err m1 m2 hb hp]
      simp [hp]
  · rw [assembly_of_builtin_error env g hostNode err m1 hb]

theorem forRange_invariant_mem (body : String → Machine → Option GoError × Machine)
    (P : Machine → Prop) (xs : List String) (hbody : ∀ x ∈ xs, ∀ m, P m → P (body x m).2)
    (m : Machine) (hm : P m) : P (forRange body xs m).2 :=
  forRange_result body (fun r => P r.2) xs hbody m hm

theorem loadPlugin_trace_filter (env : Env) (ctx : Context) (name so : String) (m : Machine) :
    (loadPlugin env ctx so m).2.trace.filter (Event.isCtorOf name) =
      m.trace.filter (Event.isCtorOf name) := by
  rcases loadPlugin_cases env ctx so m with ⟨_, _, h⟩ | ⟨_, _, _, _, h⟩ | ⟨_, _, _, _, h⟩ |
    ⟨_, _, _, _, _, _, _, h⟩ | ⟨_, _, _, _, _, _, h⟩ <;> rw [h] <;>
    simp [List.filter_append, List.filter_cons, Event.isCtorOf]

theorem loadPlugin_GetHandler_ne (env : Env) (ctx : Context) (name so : String) (m : Machine)
    (hne : name ≠ so) :
    (loadPlugin env ctx so m).2.bundle.GetHandler name = m.bundle.GetHandler name := by
  rcases loadPlugin_cases env ctx so m with ⟨_, _, h⟩ | ⟨_, _, _, _, h⟩ | ⟨_, _, _, _, h⟩ |
    ⟨_, _, _, _, _, _, _, h⟩ | ⟨_, _, _, _, _, _, h⟩ <;> rw [h]
  exact GetHandler_AddHandler_ne _ _ _ _ hne

theorem probeIter_nodup (env : Env) (ctx : Context) (t : String) (m : Machine)
    (hm : m.bundle.names.Nodup) : (probeIter env ctx t m).2.bundle.names.Nodup := by
  rcases probeIter_cases env ctx t m with ⟨_, h⟩ | ⟨_, _, h⟩ | ⟨_, _, _, _, _, h⟩ |
    ⟨_, _, _, _, h⟩ | ⟨_, _, _, h⟩ <;> rw [h] <;> try exact hm
  exact names_AddHandler_nodup _ _ _ hm

theorem mandatoryBlock_nodup (env : Env) (ctx : Context) (m : Machine)
    (hm : m.bundle.names.Nodup) : (mandatoryBlock env ctx m).2.bundle.names.Nodup := by
  rcases mandatoryBlock_cases env ctx m with ⟨_, h⟩ | ⟨_, _, _, _, h⟩ | ⟨_, _, _, _, _, _, h⟩ |
    ⟨_, _, _, _, _, h⟩ <;> rw [h]
  · exact hm
  · exact hm
  · exact names_AddHandler_nodup _ _ _ hm
  · exact names_AddHandler_nodup _ _ _ (names_AddHandler_nodup _ _ _ hm)

theorem loadPlugin_nodup (env : Env) (ctx : Context) (so : String) (m : Machine)
    (hm : m.bundle.names.Nodup) : (loadPlugin env ctx so m).2.bundle.names.Nodup := by
  rcases loadPlugin_cases env ctx so m with ⟨_, _, h⟩ | ⟨_, _, _, _, h⟩ | ⟨_, _, _, _, h⟩ |
    ⟨_, _, _, _, _, _, _, h⟩ | ⟨_, _, _, _, _, _, h⟩ <;> rw [h] <;> try exact hm
  exact names_AddHandler_nodup _ _ _ hm

theorem builtinPhase_nodup (env : Env) (ctx : Context) :
    (builtinPhase env ctx).2.bundle.names.Nodup := by
  have h0 : (⟨NewBundle, []⟩ : Machine).bundle.names.Nodup := by
    simp [NewBundle, Bundle.names]
  have h1 := mandatoryBlock_nodup env ctx _ h0
  unfold builtinPhase
  rcases hb : mandatoryBlock env ctx ⟨NewBundle, []⟩ with ⟨_ | err, m1⟩
  · rw [hb] at h1
    exact forRange_invariant _ (fun m => m.bundle.names.Nodup) (probeIter_nodup env ctx) _ m1 h1
  · rw [hb] at h1
    exact h1

theorem finalState_nodup (env : Env) (ctx : Context) :
    (finalState env ctx).2.bundle.names.Nodup := by
  have h1 := builtinPhase_nodup env ctx
  unfold finalState
  rcases hb : builtinPhase env ctx with ⟨_ | err, m1⟩
  · rw [hb] at h1
    exact forRange_invariant _ (fun m => m.bundle.names.Nodup) (loadPlugin_nodup env ctx) _ m1 h1
  · rw [hb] at h1
    exact h1

/-! ## The trace only grows -/

theorem probeIter_trace_grows (env : Env) (ctx : Context) (t : String) (m : Machine) :
    m.trace <+: (probeIter env ctx t m).2.trace := by
  rcases probeIter_cases env ctx t m with ⟨_, h⟩ | ⟨_, _, h⟩ | ⟨_, _, _, _, _, h⟩ |
    ⟨_, _, _, _, h⟩ | ⟨_, _, _, h⟩ <;> rw [h] <;> simp

theorem loadPlugin_trace_grows (env : Env) (ctx : Context) (so : String) (m : Machine) :
    m.trace <+: (loadPlugin env ctx so m).2.trace := by
  rcases loadPlugin_cases env ctx so m with ⟨_, _, h⟩ | ⟨_, _, _, _, h⟩ | ⟨_, _, _, _, h⟩ |
    ⟨_, _, _, _, _, _, _, h⟩ | ⟨_, _, _, _, _, _, h⟩ <;> rw [h] <;>
    simp [List.append_assoc]

theorem forRange_trace_grows (body : String → Machine → Option GoError × Machine)
    (hbody : ∀ x m, m.trace <+: (body x m).2.trace) (xs : List String) (m : Machine) :
    m.trace <+: (forRange body xs m).2.trace :=
  forRange_invariant body (fun m1 => m.trace <+: m1.trace)
    (fun x m1 h => h.trans (hbody x m1)) xs m (List.prefix_refl _)

theorem builtinPhase_trace_le_final (env : Env) (ctx : Context) :
    (builtinPhase env ctx).2.trace <+: (finalState env ctx).2.trace := by
  unfold finalState
  rcases builtinPhase env ctx with ⟨_ | err, m⟩
  · exact forRange_trace_grows _ (loadPlugin_trace_grows env ctx) env.plugins m
  · exact List.prefix_refl _

theorem mandatoryBlock_trace_le_final (env : Env) (ctx : Context) :
    (mandatoryBlock env ctx ⟨NewBundle, []⟩).2.trace <+: (finalState env ctx).2.trace := by
  refine List.IsPrefix.trans ?_ (builtinPhase_trace_le_final env ctx)
  unfold builtinPhase
  rcases mandatoryBlock env ctx ⟨NewBundle, []⟩ with ⟨_ | err, m⟩
  · exact forRange_trace_grows _ (probeIter_trace_grows env ctx) _ m
  · exact List.prefix_refl _

theorem forRange_cons_trace (body : String → Machine → Option GoError × Machine)
    (hbody : ∀ x m, m.trace <+: (body x m).2.trace) (x : String) (rest : List String)
    (m : Machine) : (body x m).2.trace <+: (forRange body (x :: rest) m).2.trace := by
  simp only [forRange]
  rcases body x m with ⟨_ | err, m1⟩
  · exact forRange_trace_grows body hbody rest m1
  · exact List.prefix_refl _

theorem find?_of_extends (p : Event → Bool) (t0 t : List Event) (x : Event) (hp : t0 <+: t)
    (hx : t0.find? p = some x) : t.find? p = some x := by
  obtain ⟨ext, rfl⟩ := hp
  simp [List.find?_append, hx]

theorem assembly_trace (env : Env) (g hostNode : Nat) :
    (NewTopologyProbeBundle env g hostNode).trace = (finalState env ⟨g, hostNode⟩).2.trace := by
  rw [assembly_eq_finalState]

theorem assembly_bundle_some (env : Env) (g hostNode : Nat) (b : Bundle)
    (hb : (NewTopologyProbeBundle env g hostNode).bundle = some b) :
    (finalState env ⟨g, hostNode⟩).1 = none ∧ (finalState env ⟨g, hostNode⟩).2.bundle = b := by
  rw [assembly_eq_finalState] at hb
  simp only at hb
  rcases hr : (finalState env ⟨g, hostNode⟩).1 with _ | e
  · rw [hr] at hb
    exact ⟨rfl, by simpa using hb⟩
  · rw [hr] at hb
    simp at hb

theorem builtinPhase_of_block_ok (env : Env) (ctx : Context) (m1 : Machine)
    (hb : mandatoryBlock env ctx ⟨NewBundle, []⟩ = (none, m1)) :
    builtinPhase env ctx = probeLoop env ctx (probeList env) m1 := by
  simp [builtinPhase, hb]

theorem builtinPhase_of_block_error (env : Env) (ctx : Context) (e : GoError) (m1 : Machine)
    (hb : mandatoryBlock env ctx ⟨NewBundle, []⟩ = (some e, m1)) :
    builtinPhase env ctx = (some e, m1) := by
  simp [builtinPhase, hb]

theorem finalState_of_block_error (env : Env) (ctx : Context) (e : GoError) (m1 : Machine)
    (hb : mandatoryBlock env ctx ⟨NewBundle, []⟩ = (some e, m1)) :
    finalState env ctx = (some e, m1) := by
  simp [finalState, builtinPhase_of_block_error env ctx e m1 hb]

theorem finalState_prefix_of_block_ok (env : Env) (ctx : Context) (m1 : Machine)
    (hb : mandatoryBlock env ctx ⟨NewBundle, []⟩ = (none, m1)) :
    m1.trace <+: (finalState env ctx).2.trace := by
  have hp2 := forRange_trace_grows _ (probeIter_trace_grows env ctx) (probeList env) m1
  unfold finalState
  rw [builtinPhase_of_block_ok env ctx m1 hb, probeLoop]
  rcases hr : forRange (probeIter env ctx) (probeList env) m1 with ⟨_ | err, m2⟩
  · rw [hr] at hp2
    exact hp2.trans (forRange_trace_grows _ (loadPlugin_trace_grows env ctx) _ m2)
  · rw [hr] at hp2
    exact hp2

theorem finalState_of_block_ok (env : Env) (ctx : Context) (name : String) (hd : Handler)
    (m1 : Machine) (hb : mandatoryBlock env ctx ⟨NewBundle, []⟩ = (none, m1))
    (hB : Holds name hd [Event.ctor name (some hd, none)] m1) :
    (finalState env ctx).2.trace.filter (Event.isCtorOf name) =
      [Event.ctor name (some hd, none)] ∧
    (name ∉ env.plugins → (finalState env ctx).2.bundle.GetHandler name = some hd) := by
  have h2 := probeLoop_holds env ctx name hd _ (probeList env) m1 hB
  unfold finalState
  rw [builtinPhase_of_block_ok env ctx m1 hb]
  rw [probeLoop] at h2
  rw [probeLoop]
  rcases hr : forRange (probeIter env ctx) (probeList env) m1 with ⟨_ | err, m2⟩
  · rw [hr] at h2
    simp only
    refine ⟨?_, ?_⟩
    · exact forRange_invariant _
        (fun m => m.trace.filter (Event.isCtorOf name) = [Event.ctor name (some hd, none)])
        (fun x m hm => by
          show (loadPlugin env ctx x m).2.trace.filter _ = _
          rw [loadPlugin_trace_filter]; exact hm) _ m2 h2.2
    · intro hnot
      exact forRange_invariant_mem _ (fun m => m.bundle.GetHandler name = some hd) env.plugins
        (fun x hx m hm => by
          show (loadPlugin env ctx x m).2.bundle.GetHandler name = some hd
          rw [loadPlugin_GetHandler_ne env ctx name x m (fun hc => hnot (hc ▸ hx))]
          exact hm) m2 h2.1
  · rw [hr] at h2
    exact ⟨h2.2, fun _ => h2.1⟩

/-- C3 (amended): on Linux, when the first call of the constructor of a mandatory probe
(`netlink` or `netns`) returns a handler, that constructor is called exactly once in the
whole assembly, however often the configuration repeats the name; and when the assembly
succeeds and no extension is configured under that name, the bundle has exactly one entry
for the name, which holds the handler of that first call. -/
theorem mandatory_probe_built_once (env : Env) (g hostNode : Nat) (name : String)
    (hd : Handler) (hname : name ∈ mandatoryNames env)
    (hfirst : (NewTopologyProbeBundle env g hostNode).trace.find? (Event.isCtorOf name) =
      some (Event.ctor name (some hd, none))) :
    (NewTopologyProbeBundle env g hostNode).trace.filter (Event.isCtorOf name) =
      [Event.ctor name (some hd, none)] ∧
    (∀ b, (NewTopologyProbeBundle env g hostNode).bundle = some b → name ∉ env.plugins →
      b.Handlers.filter (fun p => p.1 = name) = [(name, some hd)]) := by
  have hnodup := finalState_nodup env ⟨g, hostNode⟩
  suffices h : (finalState env ⟨g, hostNode⟩).2.trace.filter (Event.isCtorOf name) =
      [Event.ctor name (some hd, none)] ∧
      (name ∉ env.plugins →
        (finalState env ⟨g, hostNode⟩).2.bundle.GetHandler name = some hd) by
    refine ⟨by rw [assembly_trace]; exact h.1, ?_⟩
    intro b hb hnot
    obtain ⟨_, hb2⟩ := assembly_bundle_some env g hostNode b hb
    rw [← hb2]
    exact filter_entries_of_lookup _ _ _ hnodup (lookup_of_GetHandler _ _ _ (h.2 hnot))
  rw [assembly_trace] at hfirst
  rcases mandatoryBlock_cases env ⟨g, hostNode⟩ ⟨NewBundle, []⟩ with ⟨hl, _⟩ |
    ⟨hl, h0, e, _, h⟩ | ⟨hl, h1, h0, e, _, _, h⟩ | ⟨hl, h1, h2, _, _, h⟩
  · simp [mandatoryNames, hl] at hname
  · simp only [mandatoryNames, hl, if_true, List.mem_cons, List.mem_singleton,
      List.not_mem_nil, or_false] at hname
    rw [finalState_of_block_error env _ e _ h] at hfirst ⊢
    rcases hname with hn | hn <;> subst hn <;>
      simp [List.find?, Event.isCtorOf] at hfirst
  · simp only [mandatoryNames, hl, if_true, List.mem_cons, List.mem_singleton,
      List.not_mem_nil, or_false] at hname
    have hne : ("netns" == "netlink") = false := by decide
    have hne2 : ("netlink" == "netns") = false := by decide
    rw [finalState_of_block_error env _ e _ h] at hfirst ⊢
    rcases hname with hn | hn <;> subst hn
    · simp only [List.nil_append, List.singleton_append, List.find?, Event.isCtorOf,
        beq_self_eq_true, Option.some.injEq, Event.ctor.injEq, Prod.mk.injEq, true_and,
        and_true] at hfirst
      subst hfirst
      refine ⟨by simp [List.filter_cons, Event.isCtorOf, hne], fun _ => ?_⟩
      show (NewBundle.AddHandler "netlink" (some hd)).GetHandler "netlink" = some hd
      exact GetHandler_AddHandler_self _ _ _
    · simp [List.find?, Event.isCtorOf, hne2] at hfirst
  · simp only [mandatoryNames, hl, if_true, List.mem_cons, List.mem_singleton,
      List.not_mem_nil, or_false] at hname
    have hne : ("netns" == "netlink") = false := by decide
    have hne2 : ("netlink" == "netns") = false := by decide
    have hpre := finalState_prefix_of_block_ok env ⟨g, hostNode⟩ _ h
    simp only [List.nil_append, List.singleton_append] at hpre
    rcases hname with hn | hn <;> subst hn
    · have hf : ([Event.ctor "netlink" (h1, none), Event.ctor "netns" (h2, none)]).find?
          (Event.isCtorOf "netlink") = some (Event.ctor "netlink" (h1, none)) := by
        simp [List.find?, Event.isCtorOf]
      rw [find?_of_extends _ _ _ _ hpre hf] at hfirst
      simp only [Option.some.injEq, Event.ctor.injEq, Prod.mk.injEq, true_and, and_true]
        at hfirst
      subst hfirst
      refine finalState_of_block_ok env ⟨g, hostNode⟩ "netlink" hd _ h ⟨?_, ?_⟩
      · show ((NewBundle.AddHandler "netlink" (some hd)).AddHandler "netns" h2).GetHandler
          "netlink" = some hd
        rw [GetHandler_AddHandler_ne _ _ _ _ (by decide), GetHandler_AddHandler_self]
      · simp [List.filter_cons, Event.isCtorOf, hne]
    · have hf : ([Event.ctor "netlink" (h1, none), Event.ctor "netns" (h2, none)]).find?
          (Event.isCtorOf "netns") = some (Event.ctor "netns" (h2, none)) := by
        simp [List.find?, Event.isCtorOf, hne2]
      rw [find?_of_extends _ _ _ _ hpre hf] at hfirst
      simp only [Option.some.injEq, Event.ctor.injEq, Prod.mk.injEq, true_and, and_true]
        at hfirst
      subst hfirst
      refine finalState_of_block_ok env ⟨g, hostNode⟩ "netns" hd _ h ⟨?_, ?_⟩
      · show ((NewBundle.AddHandler "netlink" h1).AddHandler "netns" (some hd)).GetHandler
          "netns" = some hd
        rw [GetHandler_AddHandler_self]
      · simp [List.filter_cons, Event.isCtorOf, hne2]

/-- C3 (as stated, refuted): on Linux with `netlink` configured again and the netlink probe
disabled, the assembly succeeds, the constructor of `netlink` is called three times (in
the mandatory block, for the mandatory name at the head of the list, and for the
configured name), and the bundle holds no handler for `netlink`. -/
theorem disabled_mandatory_probe_built_again :
    NewTopologyProbeBundle envNetlinkDisabled 0 0 =
      ⟨some ⟨[("netlink", none), ("netns", some 5)]⟩, none,
        [Event.ctor "netlink" (none, none), Event.ctor "netns" (some 5, none),
         Event.ctor "netlink" (none, none), Event.ctor "netlink" (none, none)]⟩ ∧
    ((NewTopologyProbeBundle envNetlinkDisabled 0 0).trace.filter
      (Event.isCtorOf "netlink")).length = 3 ∧
    (∀ b, (NewTopologyProbeBundle envNetlinkDisabled 0 0).bundle = some b →
      b.GetHandler "netlink" = none) := by
  refine ⟨by decide, by decide, ?_⟩
  intro b hb
  have h : (NewTopologyProbeBundle envNetlinkDisabled 0 0).bundle =
      some ⟨[("netlink", none), ("netns", some 5)]⟩ := by decide
  rw [h] at hb
  cases hb
  decide

/-- The amended C3 at a configuration that repeats `netlink` twice and `netns` once. -/
theorem mandatory_probe_built_once_witness :
    "netlink" ∈ mandatoryNames envRepeated ∧
    (NewTopologyProbeBundle envRepeated 0 0).trace.find? (Event.isCtorOf "netlink") =
      some (Event.ctor "netlink" (some 7, none)) ∧
    ((NewTopologyProbeBundle envRepeated 0 0).trace.filter (Event.isCtorOf "netlink") =
      [Event.ctor "netlink" (some 7, none)] ∧
    (∀ b, (NewTopologyProbeBundle envRepeated 0 0).bundle = some b →
      "netlink" ∉ envRepeated.plugins →
      b.Handlers.filter (fun p => p.1 = "netlink") = [("netlink", some 7)])) :=
  ⟨by decide, by decide,
    mandatory_probe_built_once envRepeated 0 0 "netlink" 7 (by decide) (by decide)⟩

/-- C4 (the code at the failing input): on Linux with nothing configured and the netlink
probe disabled, the assembly succeeds, but the mandatory block has added `netlink` to the
bundle with a nil handler (and the loop has called the constructor a second time): the
final bundle has an entry under `netlink`. -/
theorem disabled_netlink_is_added :
    NewTopologyProbeBundle envNetlinkOff 0 0 =
      ⟨some ⟨[("netlink", none), ("netns", some 5)]⟩, none,
        [Event.ctor "netlink" (none, none), Event.ctor "netns" (some 5, none),
         Event.ctor "netlink" (none, none)]⟩ ∧
    (∀ b, (NewTopologyProbeBundle envNetlinkOff 0 0).bundle = some b → "netlink" ∈ b.names) := by
  refine ⟨by decide, ?_⟩
  intro b hb
  have h : (NewTopologyProbeBundle envNetlinkOff 0 0).bundle =
      some ⟨[("netlink", none), ("netns", some 5)]⟩ := by decide
  rw [h] at hb
  cases hb
  decide

/-! ## Extensions -/

theorem assembly_success_iff (env : Env) (g hostNode : Nat) (b : Bundle) (t : List Event) :
    NewTopologyProbeBundle env g hostNode = ⟨some b, none, t⟩ ↔
      ∃ m1, builtinPhase env ⟨g, hostNode⟩ = (none, m1) ∧
        pluginLoop env ⟨g, hostNode⟩ env.plugins m1 = (none, ⟨b, t⟩) := by
  constructor
  · intro h
    rcases hb : builtinPhase env ⟨g, hostNode⟩ with ⟨_ | err, m1⟩
    · rcases hp : pluginLoop env ⟨g, hostNode⟩ env.plugins m1 with ⟨_ | err, m2⟩
      · rw [assembly_of_success env g hostNode m1 m2 hb hp] at h
        simp only [Outcome.mk.injEq, Option.some.injEq, true_and] at h
        refine ⟨m1, rfl, ?_⟩
        obtain ⟨h1, h2⟩ := h
        cases m2
        simp only at h1 h2
        subst h1 h2
        exact hp
      · rw [assembly_of_plugin_error env g hostNode err m1 m2 hb hp] at h
        simp at h
    · rw [assembly_of_builtin_error env g hostNode err m1 hb] at h
      simp at h
  · rintro ⟨m1, hb, hp⟩
    rw [assembly_of_success env g hostNode m1 _ hb hp]

theorem assembly_after_plugins (env : Env) (g hostNode : Nat) (pre post : List String)
    (so : String) (b : Bundle) (t : List Event) (err : GoError) (m : Machine)
    (hplugins : env.plugins = pre ++ so :: post)
    (hpre : NewTopologyProbeBundle { env with plugins := pre } g hostNode = ⟨some b, none, t⟩)
    (hso : loadPlugin env ⟨g, hostNode⟩ so ⟨b, t⟩ = (some err, m)) :
    NewTopologyProbeBundle env g hostNode = ⟨none, some err, m.trace⟩ := by
  obtain ⟨m1, hb, hp⟩ := (assembly_success_iff _ g hostNode b t).1 hpre
  have hb2 : builtinPhase env ⟨g, hostNode⟩ = (none, m1) := hb
  have hp2 : forRange (loadPlugin env ⟨g, hostNode⟩) pre m1 = (none, ⟨b, t⟩) := hp
  apply assembly_of_plugin_error env g hostNode err m1 m hb2
  rw [hplugins, pluginLoop, forRange_append, hp2]
  simp [forRange, hso]

theorem append_ne_right (p e : String) (hp : 0 < p.length) : p ++ e ≠ e := by
  intro h
  have h2 := congrArg String.length h
  rw [String.length_append] at h2
  omega

/-- C5: when the assembly succeeds up to an extension (with bundle `b` and trace `t` for
the extensions configured before it), its module loads, and the exported `NewProbe` is of
another type than the constructor type, the assembly returns no bundle and the error
`Invalid plugin <name>, <observed type>`, and the last things it did are the load and the
lookup: the exported symbol is not called. -/
theorem invalid_extension_signature (env : Env) (g hostNode : Nat) (pre post : List String)
    (so typeName : String) (b : Bundle) (t : List Event) (plugin : Plugin)
    (hplugins : env.plugins = pre ++ so :: post)
    (hpre : NewTopologyProbeBundle { env with plugins := pre } g hostNode = ⟨some b, none, t⟩)
    (hopen : env.pluginOpen (pluginFile env so) t = .ok plugin)
    (hsym : plugin.Lookup "NewProbe" = .ok (.other typeName)) :
    NewTopologyProbeBundle env g hostNode =
      ⟨none, some ("Invalid plugin " ++ so ++ ", " ++ typeName),
        t ++ [Event.pluginOpen so (pluginFile env so) none, Event.pluginLookup so none]⟩ := by
  have hso : loadPlugin env ⟨g, hostNode⟩ so ⟨b, t⟩ =
      (some ("Invalid plugin " ++ so ++ ", " ++ typeName),
        ⟨b, t ++ [Event.pluginOpen so (pluginFile env so) none, Event.pluginLookup so none]⟩) := by
    simp [loadPlugin, hopen, hsym]
  exact assembly_after_plugins env g hostNode pre post so b t _ _ hplugins hpre hso

/-- C5 at the extension `custom` whose `NewProbe` is a `func() error`. -/
theorem invalid_extension_signature_witness :
    envWrongSignature.plugins = [] ++ "custom" :: [] ∧
    NewTopologyProbeBundle { envWrongSignature with plugins := [] } 0 0 =
      ⟨some ⟨[("netlink", some 7), ("netns", some 5)]⟩, none,
        [Event.ctor "netlink" (some 7, none), Event.ctor "netns" (some 5, none)]⟩ ∧
    NewTopologyProbeBundle envWrongSignature 0 0 =
      ⟨none, some ("Invalid plugin " ++ "custom" ++ ", " ++ "func() error"),
        [Event.ctor "netlink" (some 7, none), Event.ctor "netns" (some 5, none)] ++
          [Event.pluginOpen "custom" (pluginFile envWrongSignature "custom") none,
           Event.pluginLookup "custom" none]⟩ :=
  ⟨rfl, by decide,
    invalid_extension_signature envWrongSignature 0 0 [] [] "custom" "func() error"
      ⟨[("netlink", some 7), ("netns", some 5)]⟩
      [Event.ctor "netlink" (some 7, none), Event.ctor "netns" (some 5, none)]
      wrongModule rfl (by decide) rfl rfl⟩

/-- C9 (as stated, refuted): the constructor of the extension `custom` returns the error
`boom`; the assembly returns another error, whose message wraps it. -/
theorem extension_error_is_wrapped :
    NewTopologyProbeBundle envFailingExtension 0 0 =
      ⟨none, some "Failed to instantiate plugin custom: boom",
        [Event.ctor "netlink" (some 7, none), Event.ctor "netns" (some 5, none),
         Event.pluginOpen "custom" "/usr/lib/skydive/custom.so" none,
         Event.pluginLookup "custom" none, Event.pluginCtor "custom" (none, some "boom")]⟩ ∧
    (NewTopologyProbeBundle envFailingExtension 0 0).err ≠ some "boom" := by
  refine ⟨by decide, by decide⟩

/-- C9 (amended): when the assembly succeeds up to an extension (with bundle `b` and trace
`t` for the extensions configured before it), its module loads, the exported `NewProbe`
has the constructor type and the call of it returns an error `e`, the assembly returns no
bundle and a new error, `Failed to instantiate plugin <name>: <e>`, which is never `e`
itself; that call is the last thing the assembly did. -/
theorem extension_error_wrapped (env : Env) (g hostNode : Nat) (pre post : List String)
    (so : String) (b : Bundle) (t : List Event) (plugin : Plugin)
    (f : Context → List Event → Bundle → CtorResult) (hd : Option Handler) (e : GoError)
    (hplugins : env.plugins = pre ++ so :: post)
    (hpre : NewTopologyProbeBundle { env with plugins := pre } g hostNode = ⟨some b, none, t⟩)
    (hopen : env.pluginOpen (pluginFile env so) t = .ok plugin)
    (hsym : plugin.Lookup "NewProbe" = .ok (.handlerCtor f))
    (hctor : f ⟨g, hostNode⟩
      (t ++ [Event.pluginOpen so (pluginFile env so) none, Event.pluginLookup so none]) b =
        (hd, some e)) :
    NewTopologyProbeBundle env g hostNode =
      ⟨none, some ("Failed to instantiate plugin " ++ so ++ ": " ++ e),
        t ++ [Event.pluginOpen so (pluginFile env so) none, Event.pluginLookup so none,
          Event.pluginCtor so (hd, some e)]⟩ ∧
    "Failed to instantiate plugin " ++ so ++ ": " ++ e ≠ e := by
  have hso : loadPlugin env ⟨g, hostNode⟩ so ⟨b, t⟩ =
      (some ("Failed to instantiate plugin " ++ so ++ ": " ++ e),
        ⟨b, t ++ [Event.pluginOpen so (pluginFile env so) none, Event.pluginLookup so none,
          Event.pluginCtor so (hd, some e)]⟩) := by
    have hctor2 := hctor
    simp only [List.append_assoc, List.singleton_append] at hctor2
    simp [loadPlugin, hopen, hsym, hctor2]
  refine ⟨assembly_after_plugins env g hostNode pre post so b t _ _ hplugins hpre hso, ?_⟩
  apply append_ne_right
  simp only [String.length_append]
  have : ("Failed to instantiate plugin ").length = 29 := by decide
  omega

/-- The amended C9 at the extension `custom` whose constructor returns `boom`. -/
theorem extension_error_wrapped_witness :
    envFailingExtension.plugins = [] ++ "custom" :: [] ∧
    NewTopologyProbeBundle { envFailingExtension with plugins := [] } 0 0 =
      ⟨some ⟨[("netlink", some 7), ("netns", some 5)]⟩, none,
        [Event.ctor "netlink" (some 7, none), Event.ctor "netns" (some 5, none)]⟩ ∧
    (NewTopologyProbeBundle envFailingExtension 0 0 =
      ⟨none, some ("Failed to instantiate plugin " ++ "custom" ++ ": " ++ "boom"),
        [Event.ctor "netlink" (some 7, none), Event.ctor "netns" (some 5, none)] ++
          [Event.pluginOpen "custom" (pluginFile envFailingExtension "custom") none,
           Event.pluginLookup "custom" none, Event.pluginCtor "custom" (none, some "boom")]⟩ ∧
    "Failed to instantiate plugin " ++ "custom" ++ ": " ++ "boom" ≠ "boom") :=
  ⟨rfl, by decide,
    extension_error_wrapped envFailingExtension 0 0 [] [] "custom"
      ⟨[("netlink", some 7), ("netns", some 5)]⟩
      [Event.ctor "netlink" (some 7, none), Event.ctor "netns" (some 5, none)]
      failingModule failingCtor none "boom" rfl (by decide) rfl rfl rfl⟩

/-! ## First registration -/

/-- C8 (as stated, refuted): with an extension named `netlink` on Linux, the name already
has the handler 7 of the built-in probe when the extension is reached; the extension is
loaded all the same, its constructor is called, and its handler 100 replaces the handler
registered first. -/
theorem extension_duplicate_not_skipped :
    NewTopologyProbeBundle envExtensionNamedNetlink 0 0 =
      ⟨some ⟨[("netlink", some 100), ("netns", some 5)]⟩, none,
        [Event.ctor "netlink" (some 7, none), Event.ctor "netns" (some 5, none),
         Event.pluginOpen "netlink" "/usr/lib/skydive/netlink.so" none,
         Event.pluginLookup "netlink" none,
         Event.pluginCtor "netlink" (some 100, none)]⟩ ∧
    (builtinPhase envExtensionNamedNetlink ⟨0, 0⟩).2.bundle.GetHandler "netlink" = some 7 := by
  refine ⟨by decide, by decide⟩

theorem loadPlugin_order (env : Env) (ctx : Context) (so : String) (m : Machine) :
    ∃ ext, (loadPlugin env ctx so m).2.trace = m.trace ++ ext ∧
      ext.map Event.call <+: extensionCalls env so ∧
      ((loadPlugin env ctx so m).1 = none → ext.map Event.call = extensionCalls env so) := by
  rcases loadPlugin_cases env ctx so m with ⟨err, _, h⟩ | ⟨_, err, _, _, h⟩ | ⟨_, _, _, _, h⟩ |
    ⟨_, _, hd, err, _, _, _, h⟩ | ⟨_, _, hd, _, _, _, h⟩ <;> rw [h]
  · exact ⟨[Event.pluginOpen so (pluginFile env so) (some err)], rfl,
      ⟨[Call.Lookup so, Call.Ctor so], rfl⟩, by simp⟩
  · exact ⟨[Event.pluginOpen so (pluginFile env so) none, Event.pluginLookup so (some err)],
      by simp, ⟨[Call.Ctor so], rfl⟩, by simp⟩
  · exact ⟨[Event.pluginOpen so (pluginFile env so) none, Event.pluginLookup so none],
      by simp, ⟨[Call.Ctor so], rfl⟩, by simp⟩
  · exact ⟨[Event.pluginOpen so (pluginFile env so) none, Event.pluginLookup so none,
      Event.pluginCtor so (hd, some err)], by simp, ⟨[], rfl⟩, by simp⟩
  · exact ⟨[Event.pluginOpen so (pluginFile env so) none, Event.pluginLookup so none,
      Event.pluginCtor so (hd, none)], by simp, ⟨[], rfl⟩, fun _ => rfl⟩

theorem pluginLoop_order (env : Env) (ctx : Context) (l : List String) (m : Machine) :
    ∃ tp, (pluginLoop env ctx l m).2.trace = m.trace ++ tp ∧
      tp.map Event.call <+: allExtensionCalls env l ∧
      ((pluginLoop env ctx l m).1 = none → tp.map Event.call = allExtensionCalls env l) := by
  induction l generalizing m with
  | nil => exact ⟨[], by simp [pluginLoop, forRange], by simp [allExtensionCalls],
      fun _ => by simp [allExtensionCalls]⟩
  | cons x rest ih =>
    obtain ⟨ext, h1, h2, h3⟩ := loadPlugin_order env ctx x m
    simp only [pluginLoop, forRange, allExtensionCalls]
    rcases hb : loadPlugin env ctx x m with ⟨_ | err, m1⟩
    · rw [hb] at h1 h3
      obtain ⟨tp, i1, i2, i3⟩ := ih m1
      refine ⟨ext ++ tp, ?_, ?_, ?_⟩
      · simp only [pluginLoop] at i1
        simp only at h1 ⊢
        rw [i1, h1, List.append_assoc]
      · rw [List.map_append, h3 rfl]
        exact (List.prefix_append_right_inj _).2 i2
      · intro hok
        rw [List.map_append, h3 rfl, i3 hok]
    · rw [hb] at h1
      exact ⟨ext, h1, h2.trans (List.prefix_append _ _), fun hc => by simp at hc⟩

/-- C8 (amended): the bundle holds at most one entry per name throughout (the loop over
the built-in names and the loop over the extensions keep the names of the bundle
distinct, and so does the whole assembly); and in the loop over the built-in names a
name that already has a handler is skipped: whatever names are still to be processed,
the constructor of that name is not called and its handler stays in the bundle.
The loop over the extensions has no such skip, whatever the bundle holds: every
iteration starts by loading the module; when the module loads and exports a `NewProbe`
of the constructor type that returns no error, the constructor has been called and its
handler is stored under the name of the extension, in place of whatever the name held;
and a loop that ends without error has loaded, looked up and called every extension of
its list, in order, repetitions included. -/
theorem builtin_duplicate_skipped (env : Env) (ctx : Context) (l : List String)
    (m : Machine) (n : String) (hd : Handler)
    (hunique : m.bundle.names.Nodup) (hheld : m.bundle.GetHandler n = some hd) :
    (probeLoop env ctx l m).2.bundle.GetHandler n = some hd ∧
    (probeLoop env ctx l m).2.trace.filter (Event.isCtorOf n) =
      m.trace.filter (Event.isCtorOf n) ∧
    m.trace <+: (probeLoop env ctx l m).2.trace ∧
    (probeLoop env ctx l m).2.bundle.names.Nodup ∧
    (pluginLoop env ctx l m).2.bundle.names.Nodup ∧
    (∀ g hostNode b, (NewTopologyProbeBundle env g hostNode).bundle = some b →
      b.names.Nodup) ∧
    (∀ so m2, ∃ e ext, (loadPlugin env ctx so m2).2.trace =
      m2.trace ++ Event.pluginOpen so (pluginFile env so) e :: ext) ∧
    (∀ so m2 plugin f hd2,
      env.pluginOpen (pluginFile env so) m2.trace = .ok plugin →
      plugin.Lookup "NewProbe" = .ok (.handlerCtor f) →
      f ctx (m2.trace ++ [Event.pluginOpen so (pluginFile env so) none,
        Event.pluginLookup so none]) m2.bundle = (hd2, none) →
      loadPlugin env ctx so m2 =
        (none, ⟨m2.bundle.AddHandler so hd2,
          m2.trace ++ [Event.pluginOpen so (pluginFile env so) none,
            Event.pluginLookup so none, Event.pluginCtor so (hd2, none)]⟩) ∧
      (loadPlugin env ctx so m2).2.bundle.GetHandler so = hd2) ∧
    (∀ l2 m2, (pluginLoop env ctx l2 m2).1 = none →
      ∃ tp, (pluginLoop env ctx l2 m2).2.trace = m2.trace ++ tp ∧
        tp.map Event.call = allExtensionCalls env l2) := by
  have h := probeLoop_holds env ctx n hd _ l m ⟨hheld, rfl⟩
  refine ⟨h.1, h.2, forRange_trace_grows _ (probeIter_trace_grows env ctx) l m,
    forRange_invariant _ (fun m => m.bundle.names.Nodup) (probeIter_nodup env ctx) l m hunique,
    forRange_invariant _ (fun m => m.bundle.names.Nodup) (loadPlugin_nodup env ctx) l m hunique,
    ?_, ?_, ?_, ?_⟩
  · intro g hostNode b hb
    obtain ⟨_, hb2⟩ := assembly_bundle_some env g hostNode b hb
    rw [← hb2]
    exact finalState_nodup env ⟨g, hostNode⟩
  · intro so m2
    rcases loadPlugin_cases env ctx so m2 with ⟨err, _, h⟩ | ⟨_, err, _, _, h⟩ |
      ⟨_, _, _, _, h⟩ | ⟨_, _, hd2, err, _, _, _, h⟩ | ⟨_, _, hd2, _, _, _, h⟩ <;> rw [h]
    · exact ⟨some err, [], rfl⟩
    · exact ⟨none, [Event.pluginLookup so (some err)], by simp⟩
    · exact ⟨none, [Event.pluginLookup so none], by simp⟩
    · exact ⟨none, [Event.pluginLookup so none, Event.pluginCtor so (hd2, some err)],
        by simp⟩
    · exact ⟨none, [Event.pluginLookup so none, Event.pluginCtor so (hd2, none)], by simp⟩
  · intro so m2 plugin f hd2 hopen hsym hctor
    have hload : loadPlugin env ctx so m2 =
        (none, ⟨m2.bundle.AddHandler so hd2,
          m2.trace ++ [Event.pluginOpen so (pluginFile env so) none,
            Event.pluginLookup so none, Event.pluginCtor so (hd2, none)]⟩) := by
      have hctor2 := hctor
      simp only [List.append_assoc, List.singleton_append] at hctor2
      simp [loadPlugin, hopen, hsym, hctor2]
    refine ⟨hload, ?_⟩
    rw [hload]
    exact GetHandler_AddHandler_self _ _ _
  · intro l2 m2 hok
    obtain ⟨tp, h1, _, h3⟩ := pluginLoop_order env ctx l2 m2
    exact ⟨tp, h1, h3 hok⟩

/-- The amended C8 at a state that holds `netlink`, with `netlink` requested twice more
as a built-in, and with `netlink` requested as an extension (twice). -/
theorem builtin_duplicate_skipped_witness :
    netlinkBuilt.bundle.names.Nodup ∧ netlinkBuilt.bundle.GetHandler "netlink" = some 7 ∧
    (probeLoop envRepeated ⟨0, 0⟩ ["netlink", "docker", "netlink"] netlinkBuilt).2.trace =
      [Event.ctor "netlink" (some 7, none), Event.ctor "docker" (some 6, none)] ∧
    (probeLoop envRepeated ⟨0, 0⟩ ["netlink", "docker", "netlink"]
        netlinkBuilt).2.bundle.GetHandler "netlink" = some 7 ∧
    (probeLoop envRepeated ⟨0, 0⟩ ["netlink", "docker", "netlink"]
        netlinkBuilt).2.trace.filter (Event.isCtorOf "netlink") =
      netlinkBuilt.trace.filter (Event.isCtorOf "netlink") ∧
    netlinkBuilt.trace <+:
      (probeLoop envRepeated ⟨0, 0⟩ ["netlink", "docker", "netlink"] netlinkBuilt).2.trace ∧
    (probeLoop envRepeated ⟨0, 0⟩ ["netlink", "docker", "netlink"]
        netlinkBuilt).2.bundle.names.Nodup ∧
    (pluginLoop envRepeated ⟨0, 0⟩ ["netlink", "docker", "netlink"]
        netlinkBuilt).2.bundle.names.Nodup ∧
    (∀ g hostNode b, (NewTopologyProbeBundle envRepeated g hostNode).bundle = some b →
      b.names.Nodup) ∧
    (loadPlugin envExtensionNamedNetlink ⟨0, 0⟩ "netlink" netlinkBuilt =
        (none, ⟨netlinkBuilt.bundle.AddHandler "netlink" (some 100),
          netlinkBuilt.trace ++
            [Event.pluginOpen "netlink" (pluginFile envExtensionNamedNetlink "netlink") none,
             Event.pluginLookup "netlink" none,
             Event.pluginCtor "netlink" (some 100, none)]⟩) ∧
      (loadPlugin envExtensionNamedNetlink ⟨0, 0⟩ "netlink"
        netlinkBuilt).2.bundle.GetHandler "netlink" = some 100) ∧
    (pluginLoop envExtensionNamedNetlink ⟨0, 0⟩ ["netlink", "netlink"] netlinkBuilt).1 = none ∧
    (∃ tp, (pluginLoop envExtensionNamedNetlink ⟨0, 0⟩ ["netlink", "netlink"]
        netlinkBuilt).2.trace = netlinkBuilt.trace ++ tp ∧
      tp.map Event.call =
        allExtensionCalls envExtensionNamedNetlink ["netlink", "netlink"]) := by
  have h1 := builtin_duplicate_skipped envRepeated ⟨0, 0⟩ ["netlink", "docker", "netlink"]
    netlinkBuilt "netlink" 7 (by decide) (by decide)
  have h2 := builtin_duplicate_skipped envExtensionNamedNetlink ⟨0, 0⟩ [] netlinkBuilt
    "netlink" 7 (by decide) (by decide)
  obtain ⟨a1, a2, a3, a4, a5, a6, _⟩ := h1
  obtain ⟨_, _, _, _, _, _, _, b2, b3⟩ := h2
  exact ⟨by decide, by decide, by decide, a1, a2, a3, a4, a5, a6,
    b2 "netlink" netlinkBuilt customModule customCtor (some 100) rfl rfl rfl,
    by decide, b3 ["netlink", "netlink"] netlinkBuilt (by decide)⟩

/-! ## Successful assembly -/

/-- A loop whose body, on the states of a run with trace `T`, always succeeds and adds the
name it is given (if it is not there) succeeds and adds the names it is given. -/
theorem forRange_collect (body : String → Machine → Option GoError × Machine)
    (P : Machine → Prop) (T : List Event) (xs : List String)
    (hgrow : ∀ x m, m.trace <+: (body x m).2.trace)
    (hbody : ∀ x ∈ xs, ∀ m, P m → (body x m).2.trace <+: T →
      (body x m).1 = none ∧ P (body x m).2 ∧
      ∀ n, n ∈ (body x m).2.bundle.names ↔ n = x ∨ n ∈ m.bundle.names)
    (m : Machine) (hm : P m) (hT : (forRange body xs m).2.trace <+: T) :
    (forRange body xs m).1 = none ∧ P (forRange body xs m).2 ∧
      ∀ n, n ∈ (forRange body xs m).2.bundle.names ↔ n ∈ xs ∨ n ∈ m.bundle.names := by
  induction xs generalizing m with
  | nil => simpa [forRange] using hm
  | cons x rest ih =>
    have hstep := (forRange_cons_trace body hgrow x rest m).trans hT
    obtain ⟨h1, h2, h3⟩ := hbody x (List.mem_cons_self _ _) m hm hstep
    simp only [forRange] at hT ⊢
    rcases hb : body x m with ⟨_ | err, m1⟩
    · rw [hb] at h2 h3 hT
      obtain ⟨i1, i2, i3⟩ := ih (fun y hy => hbody y (List.mem_cons_of_mem _ hy)) m1 h2 hT
      refine ⟨i1, i2, fun n => ?_⟩
      rw [i3 n, h3 n, List.mem_cons]
      tauto
    · rw [hb] at h1
      simp at h1

theorem allSet_AddHandler (m : Machine) (x : String) (hd : Handler) (t : List Event)
    (hm : AllSet m) : AllSet ⟨m.bundle.AddHandler x (some hd), t⟩ := by
  intro n hn
  by_cases hx : n = x
  · subst hx
    show (m.bundle.AddHandler n (some hd)).GetHandler n ≠ none
    rw [GetHandler_AddHandler_self]
    simp
  · show (m.bundle.AddHandler x (some hd)).GetHandler n ≠ none
    rw [GetHandler_AddHandler_ne _ _ _ _ hx]
    rcases (names_AddHandler_mem _ _ _ _).1 hn with h | h
    · exact absurd h hx
    · exact hm n h

theorem mem_of_append_singleton_le (t T : List Event) (e : Event) (h : t ++ [e] <+: T) :
    e ∈ T :=
  h.subset (by simp)

theorem probeIter_collect (env : Env) (ctx : Context) (T : List Event) (x : String)
    (hx : x ∈ builtinNames)
    (hctor : ∀ pkg r, Event.ctor pkg r ∈ T → ∃ hd, r = (some hd, none))
    (m : Machine) (hm : AllSet m) (hT : (probeIter env ctx x m).2.trace <+: T) :
    (probeIter env ctx x m).1 = none ∧ AllSet (probeIter env ctx x m).2 ∧
      ∀ n, n ∈ (probeIter env ctx x m).2.bundle.names ↔ n = x ∨ n ∈ m.bundle.names := by
  rcases probeIter_cases env ctx x m with ⟨hg, h⟩ | ⟨_, hb, _⟩ | ⟨_, _, hd, e, _, h⟩ |
    ⟨_, _, hd, _, h⟩ | ⟨_, _, _, h⟩
  · rw [h]
    refine ⟨rfl, hm, fun n => ⟨Or.inr, fun hn => ?_⟩⟩
    rcases hn with hn | hn
    · exact hn ▸ mem_names_of_GetHandler _ _ hg
    · exact hn
  · exact absurd hx hb
  · rw [h] at hT
    obtain ⟨hd2, h2⟩ := hctor x _ (mem_of_append_singleton_le _ _ _ hT)
    simp at h2
  · rw [h]
    exact ⟨rfl, allSet_AddHandler m x hd _ hm, fun n => names_AddHandler_mem _ _ _ _⟩
  · rw [h] at hT
    obtain ⟨hd2, h2⟩ := hctor x _ (mem_of_append_singleton_le _ _ _ hT)
    simp at h2

theorem mandatoryBlock_collect (env : Env) (ctx : Context) (T : List Event)
    (hctor : ∀ pkg r, Event.ctor pkg r ∈ T → ∃ hd, r = (some hd, none))
    (m : Machine) (hm : AllSet m) (hT : (mandatoryBlock env ctx m).2.trace <+: T) :
    (mandatoryBlock env ctx m).1 = none ∧ AllSet (mandatoryBlock env ctx m).2 ∧
      ∀ n, n ∈ (mandatoryBlock env ctx m).2.bundle.names ↔
        n ∈ mandatoryNames env ∨ n ∈ m.bundle.names := by
  rcases mandatoryBlock_cases env ctx m with ⟨hl, h⟩ | ⟨hl, _, _, _, h⟩ |
    ⟨hl, h1, _, _, _, _, h⟩ | ⟨hl, h1, h2, _, _, h⟩
  · rw [h]
    simp [mandatoryNames, hl, hm]
  · rw [h] at hT
    obtain ⟨hd2, e2⟩ := hctor _ _ (mem_of_append_singleton_le _ _ _ hT)
    simp at e2
  · rw [h] at hT
    obtain ⟨hd2, e2⟩ := hctor _ _ (mem_of_append_singleton_le _ _ _ hT)
    simp at e2
  · rw [h] at hT
    obtain ⟨hd2, e2⟩ := hctor _ _ (mem_of_append_singleton_le _ _ _ hT)
    obtain ⟨hd1, e1⟩ := hctor _ _
      (mem_of_append_singleton_le _ _ _ ((List.prefix_append _ _).trans hT))
    simp only [Prod.mk.injEq, and_true] at e1 e2
    subst e1 e2
    rw [h]
    refine ⟨rfl, ?_, fun n => ?_⟩
    · exact allSet_AddHandler ⟨m.bundle.AddHandler "netlink" (some hd1), []⟩ "netns" hd2 _
        (allSet_AddHandler m "netlink" hd1 _ hm)
    · simp only [names_AddHandler_mem, mandatoryNames, hl, if_true, List.mem_cons,
        List.mem_singleton, List.not_mem_nil, or_false]
      tauto

theorem loadPlugin_collect (env : Env) (ctx : Context) (T : List Event) (so : String)
    (hext : ∀ x r, Event.pluginCtor x r ∈ T → ∃ hd, r = (some hd, none))
    (hopen : ∀ x file e, Event.pluginOpen x file e ∈ T → e = none)
    (hlookup : ∀ x e, Event.pluginLookup x e ∈ T → e = none)
    (hsig : ∀ x t plugin typeName,
      t ++ [Event.pluginOpen x (pluginFile env x) none] <+: T →
      env.pluginOpen (pluginFile env x) t = .ok plugin →
      plugin.Lookup "NewProbe" ≠ .ok (.other typeName))
    (m : Machine) (hm : AllSet m) (hT : (loadPlugin env ctx so m).2.trace <+: T) :
    (loadPlugin env ctx so m).1 = none ∧ AllSet (loadPlugin env ctx so m).2 ∧
      ∀ n, n ∈ (loadPlugin env ctx so m).2.bundle.names ↔ n = so ∨ n ∈ m.bundle.names := by
  rcases loadPlugin_cases env ctx so m with ⟨err, _, h⟩ | ⟨_, err, _, _, h⟩ |
    ⟨plugin, typeName, ho, hk, h⟩ | ⟨_, _, hd, err, _, _, _, h⟩ | ⟨_, _, hd, _, _, _, h⟩
  · rw [h] at hT
    have := hopen _ _ _ (mem_of_append_singleton_le _ _ _ hT)
    simp at this
  · rw [h] at hT
    have := hlookup _ _ (mem_of_append_singleton_le _ _ _ hT)
    simp at this
  · rw [h] at hT
    exact absurd hk (hsig so m.trace plugin typeName ((List.prefix_append _ _).trans hT) ho)
  · rw [h] at hT
    obtain ⟨hd2, e2⟩ := hext _ _ (mem_of_append_singleton_le _ _ _ hT)
    simp at e2
  · rw [h] at hT
    obtain ⟨hd2, e2⟩ := hext _ _ (mem_of_append_singleton_le _ _ _ hT)
    simp only [Prod.mk.injEq, and_true] at e2
    subst e2
    rw [h]
    exact ⟨rfl, allSet_AddHandler m so hd2 _ hm, fun n => names_AddHandler_mem _ _ _ _⟩

/-- C7: when every configured probe name is a built-in name, every constructor that the
assembly calls (of a built-in probe or of an extension) returns a handler and no error,
every module that it loads loads and answers the lookup of `NewProbe` without error, and
the `NewProbe` of every module that it loads is not of another type than the constructor
type, the assembly returns a bundle and no error; the names of the bundle are distinct,
they are exactly the mandatory names, the configured probe names and the configured
extension names, and every entry holds a handler. The conditions are on the calls of the
assembly itself (its trace), so a constructor may depend on the bundle it is handed. -/
theorem successful_assembly_entries (env : Env) (g hostNode : Nat)
    (hnames : ∀ x ∈ env.probes, x ∈ builtinNames)
    (hctor : ∀ pkg r, Event.ctor pkg r ∈ (NewTopologyProbeBundle env g hostNode).trace →
      ∃ hd, r = (some hd, none))
    (hext : ∀ so r, Event.pluginCtor so r ∈ (NewTopologyProbeBundle env g hostNode).trace →
      ∃ hd, r = (some hd, none))
    (hopen : ∀ so file e,
      Event.pluginOpen so file e ∈ (NewTopologyProbeBundle env g hostNode).trace → e = none)
    (hlookup : ∀ so e,
      Event.pluginLookup so e ∈ (NewTopologyProbeBundle env g hostNode).trace → e = none)
    (hsig : ∀ so t plugin typeName,
      t ++ [Event.pluginOpen so (pluginFile env so) none] <+:
        (NewTopologyProbeBundle env g hostNode).trace →
      env.pluginOpen (pluginFile env so) t = .ok plugin →
      plugin.Lookup "NewProbe" ≠ .ok (.other typeName)) :
    ∃ b, (NewTopologyProbeBundle env g hostNode).bundle = some b ∧
      (NewTopologyProbeBundle env g hostNode).err = none ∧
      b.names.Nodup ∧
      (∀ n, n ∈ b.names ↔ n ∈ mandatoryNames env ∨ n ∈ env.probes ∨ n ∈ env.plugins) ∧
      (∀ n ∈ b.names, b.GetHandler n ≠ none) ∧
      b.names.length = (mandatoryNames env ++ env.probes ++ env.plugins).dedup.length := by
  rw [assembly_trace] at hctor hext hopen hlookup hsig
  have hlist : ∀ x ∈ probeList env, x ∈ builtinNames := by
    intro x hx
    rcases List.mem_append.1 hx with h | h
    · by_cases hl : env.linux = true
      · simp only [mandatoryNames, hl, if_true, List.mem_cons, List.mem_singleton,
          List.not_mem_nil, or_false] at h
        rcases h with h | h <;> subst h <;> decide
      · simp [mandatoryNames, hl] at h
    · exact hnames x h
  have h0 : AllSet (⟨NewBundle, []⟩ : Machine) := by
    intro n hn
    simp [NewBundle, Bundle.names] at hn
  obtain ⟨a1, a2, a3⟩ := mandatoryBlock_collect env ⟨g, hostNode⟩ _ hctor _ h0
    (mandatoryBlock_trace_le_final env ⟨g, hostNode⟩)
  rcases hb : mandatoryBlock env ⟨g, hostNode⟩ ⟨NewBundle, []⟩ with ⟨eb, m1⟩
  rw [hb] at a1 a2 a3
  simp only at a1 a2 a3
  subst a1
  have hphase : builtinPhase env ⟨g, hostNode⟩ =
      forRange (probeIter env ⟨g, hostNode⟩) (probeList env) m1 :=
    builtinPhase_of_block_ok env _ m1 hb
  have hT2 := builtinPhase_trace_le_final env ⟨g, hostNode⟩
  rw [hphase] at hT2
  obtain ⟨b1, b2, b3⟩ := forRange_collect (probeIter env ⟨g, hostNode⟩) AllSet _ (probeList env)
    (probeIter_trace_grows env ⟨g, hostNode⟩)
    (fun x hx m hm hT => probeIter_collect env _ _ x (hlist x hx) hctor m hm hT) m1 a2 hT2
  rcases hl : forRange (probeIter env ⟨g, hostNode⟩) (probeList env) m1 with ⟨el, m2⟩
  rw [hl] at b1 b2 b3 hphase
  simp only at b1 b2 b3
  subst b1
  have hfin : finalState env ⟨g, hostNode⟩ =
      forRange (loadPlugin env ⟨g, hostNode⟩) env.plugins m2 := by
    rw [finalState, hphase]
    rfl
  have hT3 : (forRange (loadPlugin env ⟨g, hostNode⟩) env.plugins m2).2.trace <+:
      (finalState env ⟨g, hostNode⟩).2.trace := by
    rw [hfin]
  obtain ⟨c1, c2, c3⟩ := forRange_collect (loadPlugin env ⟨g, hostNode⟩) AllSet _ env.plugins
    (loadPlugin_trace_grows env ⟨g, hostNode⟩)
    (fun x _ m hm hT => loadPlugin_collect env _ _ x hext hopen hlookup hsig m hm hT) m2 b2 hT3
  rcases hp : forRange (loadPlugin env ⟨g, hostNode⟩) env.plugins m2 with ⟨ep, m3⟩
  rw [hp] at c1 c2 c3
  simp only at c1 c2 c3
  subst c1
  have hout := assembly_of_success env g hostNode m2 m3 hphase hp
  have hnodup : m3.bundle.names.Nodup := by
    have := finalState_nodup env ⟨g, hostNode⟩
    rw [hfin, hp] at this
    exact this
  have hmem : ∀ n, n ∈ m3.bundle.names ↔
      n ∈ mandatoryNames env ∨ n ∈ env.probes ∨ n ∈ env.plugins := by
    intro n
    rw [c3 n, b3 n, a3 n]
    simp only [probeList, List.mem_append, NewBundle, Bundle.names, List.map_nil,
      List.not_mem_nil, or_false]
    tauto
  refine ⟨m3.bundle, by rw [hout], by rw [hout], hnodup, hmem, c2, ?_⟩
  apply List.Perm.length_eq
  rw [List.perm_ext_iff_of_nodup hnodup (List.nodup_dedup _)]
  intro n
  rw [hmem n, List.mem_dedup]
  simp only [List.mem_append]
  tauto

theorem customModule_signature (plugin : Plugin) (typeName : String)
    (ho : (Except.ok customModule : Except GoError Plugin) = .ok plugin) :
    plugin.Lookup "NewProbe" ≠ .ok (.other typeName) := by
  injection ho with h
  subst h
  intro hk
  have h2 : (Except.ok (Symbol.handlerCtor customCtor) : Except GoError Symbol) =
      .ok (.other typeName) := hk
  injection h2 with h3
  cases h3

/-- C7 at the scenario of the spec (`netlink`, `netns` and the extension `custom` give a
bundle with exactly these three entries) and at a configuration with a dependent probe
(`docker`, whose constructor fails on a bundle without `netns` and succeeds in the run). -/
theorem successful_assembly_entries_witness :
    (NewTopologyProbeBundle envCustom 0 0).bundle =
      some ⟨[("netlink", some 7), ("netns", some 5), ("custom", some 100)]⟩ ∧
    (∃ b, (NewTopologyProbeBundle envCustom 0 0).bundle = some b ∧
      (NewTopologyProbeBundle envCustom 0 0).err = none ∧
      b.names.Nodup ∧
      (∀ n, n ∈ b.names ↔
        n ∈ mandatoryNames envCustom ∨ n ∈ envCustom.probes ∨ n ∈ envCustom.plugins) ∧
      (∀ n ∈ b.names, b.GetHandler n ≠ none) ∧
      b.names.length =
        (mandatoryNames envCustom ++ envCustom.probes ++ envCustom.plugins).dedup.length) ∧
    (mandatoryNames envCustom ++ envCustom.probes ++ envCustom.plugins).dedup.length = 3 ∧
    envDependent.NewProbe "docker" ⟨0, 0⟩ [] NewBundle = (none, some "netns is missing") ∧
    (NewTopologyProbeBundle envDependent 0 0).bundle =
      some ⟨[("netlink", some 7), ("netns", some 5), ("docker", some 6),
        ("custom", some 100)]⟩ ∧
    (∃ b, (NewTopologyProbeBundle envDependent 0 0).bundle = some b ∧
      (NewTopologyProbeBundle envDependent 0 0).err = none ∧
      b.names.Nodup ∧
      (∀ n, n ∈ b.names ↔
        n ∈ mandatoryNames envDependent ∨ n ∈ envDependent.probes ∨
          n ∈ envDependent.plugins) ∧
      (∀ n ∈ b.names, b.GetHandler n ≠ none) ∧
      b.names.length =
        (mandatoryNames envDependent ++ envDependent.probes ++
          envDependent.plugins).dedup.length) := by
  have hT1 : (NewTopologyProbeBundle envCustom 0 0).trace =
      [Event.ctor "netlink" (some 7, none), Event.ctor "netns" (some 5, none),
       Event.pluginOpen "custom" "/usr/lib/skydive/custom.so" none,
       Event.pluginLookup "custom" none, Event.pluginCtor "custom" (some 100, none)] := by
    decide
  have hT2 : (NewTopologyProbeBundle envDependent 0 0).trace =
      [Event.ctor "netlink" (some 7, none), Event.ctor "netns" (some 5, none),
       Event.ctor "docker" (some 6, none),
       Event.pluginOpen "custom" "/usr/lib/skydive/custom.so" none,
       Event.pluginLookup "custom" none, Event.pluginCtor "custom" (some 100, none)] := by
    decide
  have h1 := successful_assembly_entries envCustom 0 0 (by decide)
    (by
      rw [hT1]
      intro pkg r h
      simp only [List.mem_cons, Event.ctor.injEq, List.mem_singleton, List.not_mem_nil,
        or_false, false_or, reduceCtorEq] at h
      rcases h with ⟨_, rfl⟩ | ⟨_, rfl⟩ <;> exact ⟨_, rfl⟩)
    (by
      rw [hT1]
      intro so r h
      simp only [List.mem_cons, Event.pluginCtor.injEq, List.mem_singleton, List.not_mem_nil,
        or_false, false_or, reduceCtorEq] at h
      obtain ⟨_, rfl⟩ := h
      exact ⟨_, rfl⟩)
    (by
      rw [hT1]
      intro so file e h
      simp only [List.mem_cons, Event.pluginOpen.injEq, List.mem_singleton, List.not_mem_nil,
        or_false, false_or, reduceCtorEq] at h
      exact h.2.2)
    (by
      rw [hT1]
      intro so e h
      simp only [List.mem_cons, Event.pluginLookup.injEq, List.mem_singleton,
        List.not_mem_nil, or_false, false_or, reduceCtorEq] at h
      exact h.2)
    (fun so t plugin typeName _ ho => customModule_signature plugin typeName ho)
  have h2 := successful_assembly_entries envDependent 0 0 (by decide)
    (by
      rw [hT2]
      intro pkg r h
      simp only [List.mem_cons, Event.ctor.injEq, List.mem_singleton, List.not_mem_nil,
        or_false, false_or, reduceCtorEq] at h
      rcases h with ⟨_, rfl⟩ | ⟨_, rfl⟩ | ⟨_, rfl⟩ <;> exact ⟨_, rfl⟩)
    (by
      rw [hT2]
      intro so r h
      simp only [List.mem_cons, Event.pluginCtor.injEq, List.mem_singleton, List.not_mem_nil,
        or_false, false_or, reduceCtorEq] at h
      obtain ⟨_, rfl⟩ := h
      exact ⟨_, rfl⟩)
    (by
      rw [hT2]
      intro so file e h
      simp only [List.mem_cons, Event.pluginOpen.injEq, List.mem_singleton, List.not_mem_nil,
        or_false, false_or, reduceCtorEq] at h
      exact h.2.2)
    (by
      rw [hT2]
      intro so e h
      simp only [List.mem_cons, Event.pluginLookup.injEq, List.mem_singleton,
        List.not_mem_nil, or_false, false_or, reduceCtorEq] at h
      exact h.2)
    (fun so t plugin typeName _ ho => customModule_signature plugin typeName ho)
  exact ⟨by decide, h1, by decide, by decide, by decide, h2⟩

/-! ## Order of construction -/

theorem mandatoryBlock_order (env : Env) (ctx : Context) (m : Machine) :
    ∃ tm, (mandatoryBlock env ctx m).2.trace = m.trace ++ tm ∧
      tm.map Event.call <+: (mandatoryNames env).map Call.NewProbe ∧
      (env.linux = true → tm ≠ []) ∧
      ((mandatoryBlock env ctx m).1 = none →
        tm.map Event.call = (mandatoryNames env).map Call.NewProbe) := by
  rcases mandatoryBlock_cases env ctx m with ⟨hl, h⟩ | ⟨hl, hd, e, _, h⟩ |
    ⟨hl, h1, hd, e, _, _, h⟩ | ⟨hl, h1, h2, _, _, h⟩ <;> rw [h]
  · exact ⟨[], by simp, by simp [mandatoryNames, hl], by simp [hl], by simp [mandatoryNames, hl]⟩
  · refine ⟨[Event.ctor "netlink" (hd, some e)], rfl, ?_, by simp, by simp⟩
    simp only [mandatoryNames, hl, if_true, List.map_cons, List.map_nil, Event.call]
    exact ⟨[Call.NewProbe "netns"], rfl⟩
  · refine ⟨[Event.ctor "netlink" (h1, none), Event.ctor "netns" (hd, some e)], by simp, ?_,
      by simp, by simp⟩
    simp [mandatoryNames, hl, Event.call]
  · refine ⟨[Event.ctor "netlink" (h1, none), Event.ctor "netns" (h2, none)], by simp, ?_,
      by simp, ?_⟩
    · simp [mandatoryNames, hl, Event.call]
    · intro _
      simp [mandatoryNames, hl, Event.call]

theorem probeIter_order (env : Env) (ctx : Context) (t : String) (m : Machine) :
    ∃ ext, (probeIter env ctx t m).2.trace = m.trace ++ ext ∧
      (ext.map Event.call).Sublist [Call.NewProbe t] := by
  rcases probeIter_cases env ctx t m with ⟨_, h⟩ | ⟨_, _, h⟩ | ⟨_, _, hd, e, _, h⟩ |
    ⟨_, _, hd, _, h⟩ | ⟨_, _, _, h⟩ <;> rw [h]
  · exact ⟨[], by simp, by simp⟩
  · exact ⟨[], by simp, by simp⟩
  · exact ⟨[Event.ctor t (hd, some e)], rfl, by simp [Event.call]⟩
  · exact ⟨[Event.ctor t (some hd, none)], rfl, by simp [Event.call]⟩
  · exact ⟨[Event.ctor t (none, none)], rfl, by simp [Event.call]⟩

theorem probeLoop_order (env : Env) (ctx : Context) (l : List String) (m : Machine) :
    ∃ tl, (probeLoop env ctx l m).2.trace = m.trace ++ tl ∧
      (tl.map Event.call).Sublist (l.map Call.NewProbe) := by
  induction l generalizing m with
  | nil => exact ⟨[], by simp [probeLoop, forRange], by simp⟩
  | cons x rest ih =>
    obtain ⟨ext, h1, h2⟩ := probeIter_order env ctx x m
    simp only [probeLoop, forRange]
    rcases hb : probeIter env ctx x m with ⟨_ | err, m1⟩
    · rw [hb] at h1
      obtain ⟨tl, i1, i2⟩ := ih m1
      refine ⟨ext ++ tl, ?_, ?_⟩
      · simp only [probeLoop] at i1
        simp only at h1 ⊢
        rw [i1, h1, List.append_assoc]
      · rw [List.map_append, List.map_cons]
        exact List.Sublist.append h2 i2
    · rw [hb] at h1
      refine ⟨ext, h1, ?_⟩
      rw [List.map_cons]
      exact h2.trans (by simp)

theorem trace_decomposition (env : Env) (g hostNode : Nat) :
    ∃ tm tl tp, (NewTopologyProbeBundle env g hostNode).trace = tm ++ tl ++ tp ∧
      tm.map Event.call <+: (mandatoryNames env).map Call.NewProbe ∧
      (env.linux = true → tm ≠ []) ∧
      (env.linux = false → tm = []) ∧
      (tm.map Event.call = (mandatoryNames env).map Call.NewProbe ∨
        (tl = [] ∧ tp = [] ∧ (NewTopologyProbeBundle env g hostNode).bundle = none)) ∧
      (tl.map Event.call).Sublist ((probeList env).map Call.NewProbe) ∧
      tp.map Event.call <+: allExtensionCalls env env.plugins ∧
      ((builtinPhase env ⟨g, hostNode⟩).1 ≠ none →
        tp = [] ∧ (NewTopologyProbeBundle env g hostNode).bundle = none) ∧
      ((NewTopologyProbeBundle env g hostNode).err = none →
        tp.map Event.call = allExtensionCalls env env.plugins) := by
  obtain ⟨tm, a1, a2, a3, a4⟩ := mandatoryBlock_order env ⟨g, hostNode⟩ ⟨NewBundle, []⟩
  have a5 : env.linux = false → tm = [] := by
    intro hl
    have := a2
    simp only [mandatoryNames, hl, List.map_nil, List.prefix_nil, List.map_eq_nil_iff] at this
    simpa using this
  rcases hb : mandatoryBlock env ⟨g, hostNode⟩ ⟨NewBundle, []⟩ with ⟨_ | err, m1⟩
  · rw [hb] at a1 a4
    simp only [List.nil_append] at a1
    obtain ⟨tl, b1, b2⟩ := probeLoop_order env ⟨g, hostNode⟩ (probeList env) m1
    have hphase := builtinPhase_of_block_ok env ⟨g, hostNode⟩ m1 hb
    rcases hl : probeLoop env ⟨g, hostNode⟩ (probeList env) m1 with ⟨_ | err, m2⟩
    · rw [hl] at b1 hphase
      obtain ⟨tp, c1, c2, c3⟩ := pluginLoop_order env ⟨g, hostNode⟩ env.plugins m2
      refine ⟨tm, tl, tp, ?_, a2, a3, a5, Or.inl (a4 rfl), b2, c2, ?_, ?_⟩
      · rw [assembly_trace, finalState, hphase]
        simp only at c1 b1 ⊢
        rw [c1, b1, a1]
      · rw [hphase]
        simp
      · intro herr
        apply c3
        rw [assembly_eq_finalState] at herr
        simpa [finalState, hphase] using herr
    · rw [hl] at b1 hphase
      refine ⟨tm, tl, [], ?_, a2, a3, a5, Or.inl (a4 rfl), b2, by simp, ?_, ?_⟩
      · rw [assembly_of_builtin_error env g hostNode err m2 hphase]
        simp only at b1 ⊢
        rw [b1, a1, List.append_nil]
      · intro _
        rw [assembly_of_builtin_error env g hostNode err m2 hphase]
        exact ⟨rfl, rfl⟩
      · rw [assembly_of_builtin_error env g hostNode err m2 hphase]
        intro hc
        simp at hc
  · rw [hb] at a1
    simp only [List.nil_append] at a1
    have hphase := builtinPhase_of_block_error env ⟨g, hostNode⟩ err m1 hb
    have hout := assembly_of_builtin_error env g hostNode err m1 hphase
    refine ⟨tm, [], [], ?_, a2, a3, a5, Or.inr ⟨rfl, rfl, by rw [hout]⟩, by simp, by simp,
      ?_, ?_⟩
    · rw [hout]
      simp only [List.append_nil]
      exact a1
    · intro _
      rw [hout]
      exact ⟨rfl, rfl⟩
    · rw [hout]
      intro hc
      simp at hc

theorem loadPlugin_opens (env : Env) (ctx : Context) (so : String) (m : Machine) :
    ∃ e, m.trace ++ [Event.pluginOpen so (pluginFile env so) e] <+:
      (loadPlugin env ctx so m).2.trace := by
  rcases loadPlugin_cases env ctx so m with ⟨err, _, h⟩ | ⟨_, err, _, _, h⟩ |
    ⟨_, _, _, _, h⟩ | ⟨_, _, hd2, err, _, _, _, h⟩ | ⟨_, _, hd2, _, _, _, h⟩ <;> rw [h]
  · exact ⟨some err, List.prefix_refl _⟩
  · exact ⟨none, List.prefix_append _ _⟩
  · exact ⟨none, List.prefix_append _ _⟩
  · exact ⟨none, (List.prefix_append _ _).trans (List.prefix_append _ _)⟩
  · exact ⟨none, (List.prefix_append _ _).trans (List.prefix_append _ _)⟩

theorem probeIter_constructs (env : Env) (ctx : Context) (n : String) (m : Machine)
    (hg : m.bundle.GetHandler n = none) (hn : n ∈ builtinNames) :
    (probeIter env ctx n m).2.trace =
      m.trace ++ [Event.ctor n (env.NewProbe n ctx m.trace m.bundle)] := by
  rcases probeIter_cases env ctx n m with ⟨hg2, _⟩ | ⟨_, hb, _⟩ | ⟨_, _, _, _, hr, h⟩ |
    ⟨_, _, _, hr, h⟩ | ⟨_, _, hr, h⟩
  · exact absurd hg hg2
  · exact absurd hn hb
  · rw [h, hr]
  · rw [h, hr]
  · rw [h, hr]

/-- C10: the calls of an assembly are, in this order: the constructors of the mandatory
probes (on Linux `netlink`, then `netns` unless `netlink` failed; none off Linux); then
constructors of built-in probes in the order of the probe list (mandatory names, then
configured names), some of them skipped; then, only if the built-in part did not fail, the
calls for the extensions in configured order, each extension being loaded, looked up and
called, up to the first failure, and all of them when the assembly succeeds. When the
mandatory block did not call both constructors the assembly has failed there and nothing
else is called.
On Linux the first call is the constructor of `netlink`, from the empty bundle, and when
it returns no error the second call is the constructor of `netns`.
At every position of the probe list that the loop reaches (the block and the loop
succeeded for the names before it): a name that holds a handler is skipped, nothing is
called for it; a built-in name that holds none is constructed, its constructor is the next
call.
At every extension that the assembly reaches (it succeeds for the extensions before it),
the next call is the load of its module. -/
theorem construction_order (env : Env) (g hostNode : Nat) :
    (∃ tm tl tp, (NewTopologyProbeBundle env g hostNode).trace = tm ++ tl ++ tp ∧
      tm.map Event.call <+: (mandatoryNames env).map Call.NewProbe ∧
      (env.linux = true → tm ≠ []) ∧
      (env.linux = false → tm = []) ∧
      (tm.map Event.call = (mandatoryNames env).map Call.NewProbe ∨
        (tl = [] ∧ tp = [] ∧ (NewTopologyProbeBundle env g hostNode).bundle = none)) ∧
      (tl.map Event.call).Sublist ((probeList env).map Call.NewProbe) ∧
      tp.map Event.call <+: allExtensionCalls env env.plugins ∧
      ((builtinPhase env ⟨g, hostNode⟩).1 ≠ none →
        tp = [] ∧ (NewTopologyProbeBundle env g hostNode).bundle = none) ∧
      ((NewTopologyProbeBundle env g hostNode).err = none →
        tp.map Event.call = allExtensionCalls env env.plugins)) ∧
    (env.linux = true →
      [Event.ctor "netlink" (env.NewProbe "netlink" ⟨g, hostNode⟩ [] NewBundle)] <+:
        (NewTopologyProbeBundle env g hostNode).trace ∧
      ((env.NewProbe "netlink" ⟨g, hostNode⟩ [] NewBundle).2 = none →
        ∃ r2, [Event.ctor "netlink" (env.NewProbe "netlink" ⟨g, hostNode⟩ [] NewBundle),
          Event.ctor "netns" r2] <+: (NewTopologyProbeBundle env g hostNode).trace)) ∧
    (∀ pre n post m1 m,
      probeList env = pre ++ n :: post →
      mandatoryBlock env ⟨g, hostNode⟩ ⟨NewBundle, []⟩ = (none, m1) →
      probeLoop env ⟨g, hostNode⟩ pre m1 = (none, m) →
      (m.bundle.GetHandler n ≠ none →
        probeLoop env ⟨g, hostNode⟩ (pre ++ [n]) m1 = (none, m)) ∧
      (m.bundle.GetHandler n = none → n ∈ builtinNames →
        m.trace ++ [Event.ctor n (env.NewProbe n ⟨g, hostNode⟩ m.trace m.bundle)] <+:
          (NewTopologyProbeBundle env g hostNode).trace)) ∧
    (∀ pre so post b t,
      env.plugins = pre ++ so :: post →
      NewTopologyProbeBundle { env with plugins := pre } g hostNode = ⟨some b, none, t⟩ →
      ∃ e, t ++ [Event.pluginOpen so (pluginFile env so) e] <+:
        (NewTopologyProbeBundle env g hostNode).trace) := by
  refine ⟨trace_decomposition env g hostNode, ?_, ?_, ?_⟩
  · intro hl
    have hfin := mandatoryBlock_trace_le_final env ⟨g, hostNode⟩
    rw [assembly_trace]
    rcases mandatoryBlock_cases env ⟨g, hostNode⟩ ⟨NewBundle, []⟩ with ⟨hl2, _⟩ |
      ⟨_, hd, e, hr, h⟩ | ⟨_, h1, hd, e, hr, _, h⟩ | ⟨_, h1, h2, hr, _, h⟩
    · rw [hl] at hl2
      exact absurd hl2 (by simp)
    · rw [h] at hfin
      simp only [List.nil_append] at hfin hr
      rw [hr]
      exact ⟨hfin, fun hc => by simp at hc⟩
    · rw [h] at hfin
      simp only [List.nil_append, List.singleton_append] at hfin hr
      rw [hr]
      exact ⟨(List.prefix_append [Event.ctor "netlink" (h1, none)] _).trans hfin,
        fun _ => ⟨_, hfin⟩⟩
    · rw [h] at hfin
      simp only [List.nil_append, List.singleton_append] at hfin hr
      rw [hr]
      exact ⟨(List.prefix_append [Event.ctor "netlink" (h1, none)] _).trans hfin,
        fun _ => ⟨_, hfin⟩⟩
  · intro pre n post m1 m hlist hblock hpre
    have hpre2 : forRange (probeIter env ⟨g, hostNode⟩) pre m1 = (none, m) := hpre
    refine ⟨?_, ?_⟩
    · intro hg
      rw [probeLoop, forRange_append, hpre2]
      simp [forRange, probeIter, hg]
    · intro hg hn
      have hphase : builtinPhase env ⟨g, hostNode⟩ =
          forRange (probeIter env ⟨g, hostNode⟩) (n :: post) m := by
        rw [builtinPhase_of_block_ok env _ m1 hblock, hlist, probeLoop, forRange_append, hpre2]
      have h1 := forRange_cons_trace (probeIter env ⟨g, hostNode⟩)
        (probeIter_trace_grows env ⟨g, hostNode⟩) n post m
      rw [probeIter_constructs env _ n m hg hn, ← hphase] at h1
      rw [assembly_trace]
      exact h1.trans (builtinPhase_trace_le_final env ⟨g, hostNode⟩)
  · intro pre so post b t hplugins hpre
    obtain ⟨m1, hb, hp⟩ := (assembly_success_iff _ g hostNode b t).1 hpre
    have hb2 : builtinPhase env ⟨g, hostNode⟩ = (none, m1) := hb
    have hp2 : forRange (loadPlugin env ⟨g, hostNode⟩) pre m1 = (none, ⟨b, t⟩) := hp
    obtain ⟨e, he⟩ := loadPlugin_opens env ⟨g, hostNode⟩ so ⟨b, t⟩
    refine ⟨e, ?_⟩
    have hfin : finalState env ⟨g, hostNode⟩ =
        forRange (loadPlugin env ⟨g, hostNode⟩) (so :: post) ⟨b, t⟩ := by
      rw [finalState, hb2]
      simp only [pluginLoop]
      rw [hplugins, forRange_append, hp2]
    rw [assembly_trace, hfin]
    exact he.trans (forRange_cons_trace _ (loadPlugin_trace_grows env ⟨g, hostNode⟩) so post _)

/-- C10 at a configuration with the built-in names `docker`, `netlink` (a repetition) and
`lxd` and the extension `custom`: `docker` is constructed right after the mandatory
probes, the repeated `netlink` is skipped, and `custom` is loaded right after the
built-in part. -/
theorem construction_order_witness :
    (NewTopologyProbeBundle envOrder 0 0).trace =
      [Event.ctor "netlink" (some 7, none), Event.ctor "netns" (some 5, none),
       Event.ctor "docker" (some 6, none), Event.ctor "lxd" (some 3, none),
       Event.pluginOpen "custom" "/usr/lib/skydive/custom.so" none,
       Event.pluginLookup "custom" none, Event.pluginCtor "custom" (some 100, none)] ∧
    (∃ tm tl tp, (NewTopologyProbeBundle envOrder 0 0).trace = tm ++ tl ++ tp ∧
      tm.map Event.call <+: (mandatoryNames envOrder).map Call.NewProbe ∧
      (envOrder.linux = true → tm ≠ []) ∧
      (envOrder.linux = false → tm = []) ∧
      (tm.map Event.call = (mandatoryNames envOrder).map Call.NewProbe ∨
        (tl = [] ∧ tp = [] ∧ (NewTopologyProbeBundle envOrder 0 0).bundle = none)) ∧
      (tl.map Event.call).Sublist ((probeList envOrder).map Call.NewProbe) ∧
      tp.map Event.call <+: allExtensionCalls envOrder envOrder.plugins ∧
      ((builtinPhase envOrder ⟨0, 0⟩).1 ≠ none →
        tp = [] ∧ (NewTopologyProbeBundle envOrder 0 0).bundle = none) ∧
      ((NewTopologyProbeBundle envOrder 0 0).err = none →
        tp.map Event.call = allExtensionCalls envOrder envOrder.plugins)) ∧
    ([Event.ctor "netlink" (envOrder.NewProbe "netlink" ⟨0, 0⟩ [] NewBundle)] <+:
        (NewTopologyProbeBundle envOrder 0 0).trace ∧
      ((envOrder.NewProbe "netlink" ⟨0, 0⟩ [] NewBundle).2 = none →
        ∃ r2, [Event.ctor "netlink" (envOrder.NewProbe "netlink" ⟨0, 0⟩ [] NewBundle),
          Event.ctor "netns" r2] <+: (NewTopologyProbeBundle envOrder 0 0).trace)) ∧
    (mandatoryBuilt.trace ++
        [Event.ctor "docker"
          (envOrder.NewProbe "docker" ⟨0, 0⟩ mandatoryBuilt.trace mandatoryBuilt.bundle)] <+:
      (NewTopologyProbeBundle envOrder 0 0).trace) ∧
    probeLoop envOrder ⟨0, 0⟩ (["netlink", "netns", "docker"] ++ ["netlink"]) mandatoryBuilt =
      (none, dockerBuilt) ∧
    (∃ e, [Event.ctor "netlink" (some 7, none), Event.ctor "netns" (some 5, none),
        Event.ctor "docker" (some 6, none), Event.ctor "lxd" (some 3, none)] ++
        [Event.pluginOpen "custom" (pluginFile envOrder "custom") e] <+:
      (NewTopologyProbeBundle envOrder 0 0).trace) := by
  obtain ⟨h1, h2, h3, h4⟩ := construction_order envOrder 0 0
  refine ⟨by decide, h1, h2 rfl, ?_, ?_, ?_⟩
  · exact (h3 ["netlink", "netns"] "docker" ["netlink", "lxd"] mandatoryBuilt mandatoryBuilt
      rfl rfl rfl).2 (by decide) (by decide)
  · exact (h3 ["netlink", "netns", "docker"] "netlink" ["lxd"] mandatoryBuilt dockerBuilt
      rfl rfl rfl).1 (by decide)
  · exact h4 [] "custom" []
      ⟨[("netlink", some 7), ("netns", some 5), ("docker", some 6), ("lxd", some 3)]⟩
      [Event.ctor "netlink" (some 7, none), Event.ctor "netns" (some 5, none),
        Event.ctor "docker" (some 6, none), Event.ctor "lxd" (some 3, none)] rfl (by decide)

/-! ## Order independence -/

theorem addEntry_comm_perm (a b : String) (x y : Option Handler) (hab : a ≠ b)
    (l : List (String × Option Handler)) :
    (addEntry b y (addEntry a x l)).Perm (addEntry a x (addEntry b y l)) := by
  induction l with
  | nil =>
    simp only [addEntry, hab, hab.symm, if_false]
    exact List.Perm.swap _ _ _
  | cons p rest ih =>
    obtain ⟨k, v⟩ := p
    by_cases hka : k = a
    · subst hka
      simp [addEntry, hab]
    · by_cases hkb : k = b
      · subst hkb
        simp [addEntry, hka]
      · simp only [addEntry, hka, hkb, if_false]
        exact List.Perm.cons _ ih

theorem addEntry_of_not_mem (k : String) (v : Option Handler)
    (l : List (String × Option Handler)) (hk : k ∉ l.map Prod.fst) :
    addEntry k v l = l ++ [(k, v)] := by
  induction l with
  | nil => rfl
  | cons p rest ih =>
    obtain ⟨k2, v2⟩ := p
    simp only [List.map_cons, List.mem_cons, not_or] at hk
    simp [addEntry, Ne.symm hk.1, ih hk.2]

theorem addEntry_of_mem (k : String) (v : Option Handler)
    (l : List (String × Option Handler)) (hl : (l.map Prod.fst).Nodup)
    (hk : k ∈ l.map Prod.fst) :
    addEntry k v l = l.map (fun p => if p.1 = k then (k, v) else p) := by
  induction l with
  | nil => simp at hk
  | cons p rest ih =>
    obtain ⟨k2, v2⟩ := p
    simp only [List.map_cons, List.nodup_cons] at hl
    by_cases h2 : k2 = k
    · subst h2
      have : rest.map (fun p => if p.1 = k2 then (k2, v) else p) = rest := by
        conv_rhs => rw [← List.map_id rest]
        apply List.map_congr_left
        intro p hp
        have : p.1 ≠ k2 := fun hc => hl.1 (hc ▸ List.mem_map_of_mem Prod.fst hp)
        simp [this]
      simp [addEntry, this]
    · have hk2 : k ∈ rest.map Prod.fst := by
        simp only [List.map_cons, List.mem_cons] at hk
        rcases hk with h | h
        · exact absurd h.symm h2
        · exact h
      simp [addEntry, h2, ih hl.2 hk2]

theorem addEntry_perm (k : String) (v : Option Handler)
    (l1 l2 : List (String × Option Handler)) (hp : l1.Perm l2)
    (hl : (l1.map Prod.fst).Nodup) : (addEntry k v l1).Perm (addEntry k v l2) := by
  have hpk : (l1.map Prod.fst).Perm (l2.map Prod.fst) := hp.map _
  have hl2 : (l2.map Prod.fst).Nodup := hpk.nodup_iff.1 hl
  by_cases hk : k ∈ l1.map Prod.fst
  · rw [addEntry_of_mem k v l1 hl hk, addEntry_of_mem k v l2 hl2 (hpk.mem_iff.1 hk)]
    exact hp.map _
  · rw [addEntry_of_not_mem k v l1 hk,
      addEntry_of_not_mem k v l2 (fun hc => hk (hpk.mem_iff.2 hc))]
    exact hp.append_right _

theorem GetHandler_addIfAbsent_ne (b : Bundle) (x n : String) (hx : Option Handler)
    (hn : n ≠ x) : (addIfAbsent b x hx).GetHandler n = b.GetHandler n := by
  unfold addIfAbsent
  split
  · rfl
  · cases hx with
    | none => rfl
    | some h => exact GetHandler_AddHandler_ne _ _ _ _ hn

theorem addIfAbsent_noop (b : Bundle) (x : String) (hx : Option Handler)
    (h : b.GetHandler x ≠ none ∨ hx = none) : addIfAbsent b x hx = b := by
  unfold addIfAbsent
  split
  · rfl
  · rcases h with h | h
    · contradiction
    · subst h
      rfl

theorem addIfAbsent_add (b : Bundle) (x : String) (h : Handler)
    (hg : b.GetHandler x = none) : addIfAbsent b x (some h) = b.AddHandler x (some h) := by
  simp [addIfAbsent, hg]

theorem addIfAbsent_comm_perm (b : Bundle) (x y : String) (hx hy : Option Handler)
    (hxy : x ≠ y) :
    (addIfAbsent (addIfAbsent b x hx) y hy).Handlers.Perm
      (addIfAbsent (addIfAbsent b y hy) x hx).Handlers := by
  have e1 := GetHandler_addIfAbsent_ne b x y hx hxy.symm
  have e2 := GetHandler_addIfAbsent_ne b y x hy hxy
  by_cases cx : b.GetHandler x ≠ none ∨ hx = none
  · rw [addIfAbsent_noop b x hx cx, addIfAbsent_noop (addIfAbsent b y hy) x hx (e2 ▸ cx)]
  · by_cases cy : b.GetHandler y ≠ none ∨ hy = none
    · rw [addIfAbsent_noop b y hy cy, addIfAbsent_noop (addIfAbsent b x hx) y hy (e1 ▸ cy)]
    · simp only [not_or, not_not] at cx cy
      obtain ⟨gx, sx⟩ := cx
      obtain ⟨gy, sy⟩ := cy
      obtain ⟨h1, rfl⟩ := Option.ne_none_iff_exists'.1 sx
      obtain ⟨h2, rfl⟩ := Option.ne_none_iff_exists'.1 sy
      rw [addIfAbsent_add b x h1 gx, addIfAbsent_add b y h2 gy,
        addIfAbsent_add _ y h2 (by rw [GetHandler_AddHandler_ne _ _ _ _ hxy.symm]; exact gy),
        addIfAbsent_add _ x h1 (by rw [GetHandler_AddHandler_ne _ _ _ _ hxy]; exact gx)]
      exact addEntry_comm_perm x y _ _ hxy _

theorem probeIter_const (env : Env) (ctx : Context) (x : String) (hx : Option Handler)
    (hmem : x ∈ builtinNames) (hc : ∀ t b, env.NewProbe x ctx t b = (hx, none))
    (m : Machine) :
    (probeIter env ctx x m).1 = none ∧
      (probeIter env ctx x m).2.bundle = addIfAbsent m.bundle x hx := by
  rcases probeIter_cases env ctx x m with ⟨hg, h⟩ | ⟨_, hb, _⟩ | ⟨_, _, _, _, hr, _⟩ |
    ⟨hg, _, hd, hr, h⟩ | ⟨hg, _, hr, h⟩
  · rw [h]
    simp [addIfAbsent, hg]
  · exact absurd hmem hb
  · rw [hc] at hr
    simp at hr
  · rw [hc] at hr
    simp only [Prod.mk.injEq, and_true] at hr
    subst hr
    rw [h]
    simp [addIfAbsent, hg]
  · rw [hc] at hr
    simp only [Prod.mk.injEq, and_true] at hr
    subst hr
    rw [h]
    simp [addIfAbsent, hg]

theorem loadPlugin_oblivious (env : Env) (ctx : Context) (so : String)
    (h : Oblivious env ctx so) :
    ∃ (eo : Option GoError) (add : Option (Option Handler)), ∀ m,
      (loadPlugin env ctx so m).1 = eo ∧
      (loadPlugin env ctx so m).2.bundle =
        (match add with
          | none => m.bundle
          | some hd => m.bundle.AddHandler so hd) := by
  obtain ⟨h1, h2⟩ := h
  rcases ho : env.pluginOpen (pluginFile env so) [] with err | plugin
  · refine ⟨some ("Failed to load plugin " ++ so ++ ": " ++ err), none, fun m => ?_⟩
    have hm : env.pluginOpen (pluginFile env so) m.trace = .error err := by
      rw [h1 m.trace []]
      exact ho
    simp [loadPlugin, hm]
  · rcases hk : plugin.Lookup "NewProbe" with err | symbol
    · refine ⟨some ("Non compliant plugin '" ++ so ++ "': " ++ err), none, fun m => ?_⟩
      have hm : env.pluginOpen (pluginFile env so) m.trace = .ok plugin := by
        rw [h1 m.trace []]
        exact ho
      simp [loadPlugin, hm, hk]
    · cases symbol with
      | other typeName =>
        refine ⟨some ("Invalid plugin " ++ so ++ ", " ++ typeName), none, fun m => ?_⟩
        have hm : env.pluginOpen (pluginFile env so) m.trace = .ok plugin := by
          rw [h1 m.trace []]
          exact ho
        simp [loadPlugin, hm, hk]
      | handlerCtor f =>
        rcases hr : f ctx [] NewBundle with ⟨hd, _ | err⟩
        · refine ⟨none, some hd, fun m => ?_⟩
          have hm : env.pluginOpen (pluginFile env so) m.trace = .ok plugin := by
            rw [h1 m.trace []]
            exact ho
          have hf : ∀ t b, f ctx t b = (hd, none) := fun t b => by
            rw [h2 [] plugin f ho hk t b [] NewBundle]
            exact hr
          simp [loadPlugin, hm, hk, hf]
        · refine ⟨some ("Failed to instantiate plugin " ++ so ++ ": " ++ err), none,
            fun m => ?_⟩
          have hm : env.pluginOpen (pluginFile env so) m.trace = .ok plugin := by
            rw [h1 m.trace []]
            exact ho
          have hf : ∀ t b, f ctx t b = (hd, some err) := fun t b => by
            rw [h2 [] plugin f ho hk t b [] NewBundle]
            exact hr
          simp [loadPlugin, hm, hk, hf]

theorem pluginLoop_perm (env : Env) (ctx : Context) (l : List String)
    (hl : ∀ so ∈ l, Oblivious env ctx so) (m m2 : Machine)
    (hp : m.bundle.Handlers.Perm m2.bundle.Handlers) (hn : m.bundle.names.Nodup) :
    (forRange (loadPlugin env ctx) l m).1 = (forRange (loadPlugin env ctx) l m2).1 ∧
    (forRange (loadPlugin env ctx) l m).2.bundle.Handlers.Perm
      (forRange (loadPlugin env ctx) l m2).2.bundle.Handlers := by
  induction l generalizing m m2 with
  | nil => exact ⟨rfl, hp⟩
  | cons x rest ih =>
    obtain ⟨eo, add, hx⟩ := loadPlugin_oblivious env ctx x (hl x (List.mem_cons_self _ _))
    obtain ⟨a1, a2⟩ := hx m
    obtain ⟨b1, b2⟩ := hx m2
    have hperm : (loadPlugin env ctx x m).2.bundle.Handlers.Perm
        (loadPlugin env ctx x m2).2.bundle.Handlers := by
      rw [a2, b2]
      cases add with
      | none => exact hp
      | some hd => exact addEntry_perm x hd _ _ hp hn
    have hnodup := loadPlugin_nodup env ctx x m hn
    simp only [forRange]
    rcases ha : loadPlugin env ctx x m with ⟨e1, m1⟩
    rcases hb : loadPlugin env ctx x m2 with ⟨e2, m3⟩
    rw [ha] at a1 hperm hnodup
    rw [hb] at b1 hperm
    simp only at a1 b1 hperm hnodup
    subst a1
    subst b1
    cases e2 with
    | none => exact ih (fun so hso => hl so (List.mem_cons_of_mem _ hso)) m1 m3 hperm hnodup
    | some e => exact ⟨rfl, hperm⟩

theorem builtinPhase_split (env : Env) (ctx : Context) (l : List String) :
    builtinPhase { env with probes := l } ctx =
      match builtinPhase { env with probes := [] } ctx with
      | (some err, m) => (some err, m)
      | (none, m) => probeLoop env ctx l m := by
  rw [builtinPhase_probes_irrel, builtinPhase_probes_irrel]
  rcases mandatoryBlock env ctx ⟨NewBundle, []⟩ with ⟨_ | err, m1⟩
  · simp only [probeLoop, List.append_nil]
    rw [forRange_append]
  · rfl

theorem probeLoop_pair (env : Env) (ctx : Context) (u v : String) (hu hv : Option Handler)
    (hum : u ∈ builtinNames) (hvm : v ∈ builtinNames)
    (hcu : ∀ t b, env.NewProbe u ctx t b = (hu, none))
    (hcv : ∀ t b, env.NewProbe v ctx t b = (hv, none)) (m : Machine) :
    ∃ m2, probeLoop env ctx [u, v] m = (none, m2) ∧
      m2.bundle = addIfAbsent (addIfAbsent m.bundle u hu) v hv := by
  obtain ⟨a1, a2⟩ := probeIter_const env ctx u hu hum hcu m
  rcases ha : probeIter env ctx u m with ⟨e1, m1⟩
  rw [ha] at a1 a2
  simp only at a1 a2
  subst a1
  obtain ⟨b1, b2⟩ := probeIter_const env ctx v hv hvm hcv m1
  rcases hb : probeIter env ctx v m1 with ⟨e2, m2⟩
  rw [hb] at b1 b2
  simp only at b1 b2
  subst b1
  refine ⟨m2, by simp [probeLoop, forRange, ha, hb], by rw [b2, a2]⟩

/-- C6: for two distinct built-in names whose constructors return the same result (a
handler or nil, and no error) whatever happened before and whatever the bundle holds, and
extensions that do not depend on what happened before or on the bundle either, the
assembly with the configured list `[A, B]` and the assembly with `[B, A]` return the same
error (if any) and bundles with the same (name, handler) pairs, in some order. -/
theorem order_independence (env : Env) (g hostNode : Nat) (A B : String)
    (ha hb : Option Handler) (hAB : A ≠ B)
    (hA : A ∈ builtinNames) (hB : B ∈ builtinNames)
    (hctorA : ∀ t b, env.NewProbe A ⟨g, hostNode⟩ t b = (ha, none))
    (hctorB : ∀ t b, env.NewProbe B ⟨g, hostNode⟩ t b = (hb, none))
    (hext : ∀ so ∈ env.plugins, Oblivious env ⟨g, hostNode⟩ so) :
    (NewTopologyProbeBundle { env with probes := [A, B] } g hostNode).err =
      (NewTopologyProbeBundle { env with probes := [B, A] } g hostNode).err ∧
    SameEntries (NewTopologyProbeBundle { env with probes := [A, B] } g hostNode).bundle
      (NewTopologyProbeBundle { env with probes := [B, A] } g hostNode).bundle := by
  have s1 := builtinPhase_split env ⟨g, hostNode⟩ [A, B]
  have s2 := builtinPhase_split env ⟨g, hostNode⟩ [B, A]
  rcases hpre : builtinPhase { env with probes := [] } ⟨g, hostNode⟩ with ⟨_ | err, m⟩
  · rw [hpre] at s1 s2
    simp only at s1 s2
    obtain ⟨m1, p1, q1⟩ := probeLoop_pair env ⟨g, hostNode⟩ A B ha hb hA hB hctorA hctorB m
    obtain ⟨m2, p2, q2⟩ := probeLoop_pair env ⟨g, hostNode⟩ B A hb ha hB hA hctorB hctorA m
    rw [p1] at s1
    rw [p2] at s2
    have hperm : m1.bundle.Handlers.Perm m2.bundle.Handlers := by
      rw [q1, q2]
      exact addIfAbsent_comm_perm m.bundle A B ha hb hAB
    have hnodup : m1.bundle.names.Nodup := by
      have := builtinPhase_nodup { env with probes := [A, B] } ⟨g, hostNode⟩
      rw [s1] at this
      exact this
    obtain ⟨r1, r2⟩ := pluginLoop_perm env ⟨g, hostNode⟩ env.plugins hext m1 m2 hperm hnodup
    have f1 : finalState { env with probes := [A, B] } ⟨g, hostNode⟩ =
        forRange (loadPlugin env ⟨g, hostNode⟩) env.plugins m1 := by
      rw [finalState, s1]
      rfl
    have f2 : finalState { env with probes := [B, A] } ⟨g, hostNode⟩ =
        forRange (loadPlugin env ⟨g, hostNode⟩) env.plugins m2 := by
      rw [finalState, s2]
      rfl
    rw [assembly_eq_finalState, assembly_eq_finalState, f1, f2]
    refine ⟨r1, ?_⟩
    simp only
    rw [← r1]
    rcases hf : forRange (loadPlugin env ⟨g, hostNode⟩) env.plugins m1 with ⟨_ | e, m3⟩
    · rw [hf] at r2
      exact r2
    · trivial
  · rw [hpre] at s1 s2
    simp only at s1 s2
    rw [assembly_of_builtin_error _ g hostNode err m s1,
      assembly_of_builtin_error _ g hostNode err m s2]
    exact ⟨rfl, trivial⟩

/-- C6 at `docker` and `lxd` on Linux with the extension `custom`. -/
theorem order_independence_witness :
    "docker" ≠ "lxd" ∧ "docker" ∈ builtinNames ∧ "lxd" ∈ builtinNames ∧
    (NewTopologyProbeBundle { envUnrelated with probes := ["docker", "lxd"] } 0 0).bundle =
      some ⟨[("netlink", some 7), ("netns", some 5), ("docker", some 6), ("lxd", some 3),
        ("custom", some 100)]⟩ ∧
    (NewTopologyProbeBundle { envUnrelated with probes := ["lxd", "docker"] } 0 0).bundle =
      some ⟨[("netlink", some 7), ("netns", some 5), ("lxd", some 3), ("docker", some 6),
        ("custom", some 100)]⟩ ∧
    ((NewTopologyProbeBundle { envUnrelated with probes := ["docker", "lxd"] } 0 0).err =
      (NewTopologyProbeBundle { envUnrelated with probes := ["lxd", "docker"] } 0 0).err ∧
    SameEntries
      (NewTopologyProbeBundle { envUnrelated with probes := ["docker", "lxd"] } 0 0).bundle
      (NewTopologyProbeBundle { envUnrelated with probes := ["lxd", "docker"] } 0 0).bundle) :=
  ⟨by decide, by decide, by decide, by decide, by decide,
    order_independence envUnrelated 0 0 "docker" "lxd" (some 6) (some 3) (by decide)
      (by decide) (by decide) (fun _ _ => rfl) (fun _ _ => rfl)
      (fun so _ => ⟨fun _ _ => rfl, fun t plugin f ho hk t1 b1 t2 b2 => by
        have hp : plugin = customModule := by
          have : (Except.ok customModule : Except GoError Plugin) = .ok plugin := ho
          injection this with h
          exact h.symm
        subst hp
        have hf : f = customCtor := by
          have : (Except.ok (Symbol.handlerCtor customCtor) : Except GoError Symbol) =
              .ok (.handlerCtor f) := hk
          injection this with h
          injection h with h2
          exact h2.symm
        subst hf
        rfl⟩)⟩

end Skydive
